import Mathlib

/-!
Verification development for the `BlockCirclebuf` data structure of the
ReplayWorkbench repository (`src/include/blockCirclebuf.hpp`, the header-only
template that the claims cite by line number).

Shallow embedding conventions:
* Blocks and cursors (`BCPtr`s) live in association lists keyed by `Nat` ids;
  a C++ pointer to a block/cursor is modelled as its id, a null pointer as
  `Option.none`.
* Element type `T` is fixed to `Nat`; raw memory is a write log
  `List (Nat × Nat)` over global addresses (superblock allocations laid out
  disjointly), most recent write first; unwritten cells read `0`.
* Pointer arithmetic inside one superblock (`blockStart + blockLength`,
  `tail.getPtr() - head.getPtr()`, ...) is ordinary arithmetic on addresses;
  the one signed comparison in `write`/`read` (`ptrdiff_t`) is modelled in
  `Int`.
* Loops whose termination the source does not guarantee take explicit fuel
  and return `Option` (`none` = the loop was still running after `fuel`
  iterations).
-/

namespace ReplayWorkbench

/-- Association-list lookup keyed by `Nat` (our model of dereferencing a
pointer stored in a table). -/
def lookupA {α : Type} : List (Nat × α) → Nat → Option α
  | [], _ => none
  | (k', v) :: r, k => if k' = k then some v else lookupA r k

/-- Association-list update: replaces the value at an existing key, leaves
other entries alone. -/
def updateA {α : Type} (l : List (Nat × α)) (k : Nat) (v : α) : List (Nat × α) :=
  l.map (fun p => if p.1 = k then (k, v) else p)

/-- Association-list removal (modelling `free`ing a heap object). -/
def removeA {α : Type} (l : List (Nat × α)) (k : Nat) : List (Nat × α) :=
  l.filter (fun p => p.1 ≠ k)

/-- `BlockCirclebuf<T>::Block` (header lines 316–331): one contiguous
sub-range of a superblock, a node of the circular physical chain
(`next`/`prev`), with the cached logical successor, the `tailPassedYet`
protocol flag, the two reconcile-request flags, and the head of the intrusive
list of `BCPtr`s currently referencing the block. -/
structure Block where
  parentSuperblock : Nat
  blockStart : Nat
  blockLength : Nat
  next : Nat
  prev : Nat
  logicalNext : Nat
  tailPassedYet : Bool
  willReconcilePrev : Bool
  willReconcileNext : Bool
  referencingPtrs : Option Nat
  deriving Repr, DecidableEq

instance : Inhabited Block :=
  ⟨{ parentSuperblock := 0, blockStart := 0, blockLength := 0, next := 0, prev := 0,
     logicalNext := 0, tailPassedYet := false, willReconcilePrev := false,
     willReconcileNext := false, referencingPtrs := none }⟩

/-- `BlockCirclebuf<T>::BCPtr` (header lines 87–94): a position inside a
block together with its links in that block's intrusive cursor list. -/
structure BCPtr where
  block : Option Nat
  ptr : Option Nat
  next : Option Nat
  prev : Option Nat
  deriving Repr, DecidableEq

/-- The blank (`nullptr`-everything) cursor produced by the default `BCPtr`
constructor (lines 100–106) and by `move(nullptr, nullptr)`. -/
def BCPtr.blank : BCPtr := { block := none, ptr := none, next := none, prev := none }

instance : Inhabited BCPtr := ⟨BCPtr.blank⟩

/-- The whole `BlockCirclebuf` object: the block heap, the cursor heap, raw
memory, and the ids of the two distinguished cursors `head` and `tail`
(header lines 687–690). -/
structure CBState where
  blocks : List (Nat × Block)
  cursors : List (Nat × BCPtr)
  mem : List (Nat × Nat)
  headC : Nat
  tailC : Nat
  deriving Repr, DecidableEq

def getBlock (s : CBState) (b : Nat) : Block := (lookupA s.blocks b).getD default

def setBlock (s : CBState) (b : Nat) (blk : Block) : CBState :=
  { s with blocks := updateA s.blocks b blk }

def getCursor (s : CBState) (c : Nat) : BCPtr := (lookupA s.cursors c).getD default

def setCursor (s : CBState) (c : Nat) (v : BCPtr) : CBState :=
  { s with cursors := updateA s.cursors c v }

/-- Read one memory cell (most recent write wins; unwritten cells read 0). -/
def readMem (m : List (Nat × Nat)) (a : Nat) : Nat := (lookupA m a).getD 0

/-- `memcpy(dst, src, n)` where `src` is the in-model list `data`
(`data.length = n`): element-wise store into raw memory. -/
def memcpyL (m : List (Nat × Nat)) (dst : Nat) : List Nat → List (Nat × Nat)
  | [] => m
  | d :: rest => memcpyL ((dst, d) :: m) (dst + 1) rest

/-- `BCPtr::move(Block *newBlock, T *newPos)` (header lines 280–313).
Unlinks the cursor from its current block's list, then either blanks it
(`newBlock == nullptr`) or links it at the front of `newBlock`'s list and
updates `ptr`.  NOTE (faithful to the source): in the non-null branch the
source never assigns `this->block = newBlock`, so the `block` field keeps its
old value even though the cursor is now linked into `newBlock`'s list. -/
def cursorMove (s : CBState) (cid : Nat) (newBlock : Option Nat)
    (newPos : Option Nat) : CBState :=
  let c := getCursor s cid
  let s :=
    match c.block with
    | none => s
    | some b =>
      let s :=
        match c.prev with
        | none => setBlock s b { getBlock s b with referencingPtrs := c.next }
        | some p => setCursor s p { getCursor s p with next := c.next }
      match c.next with
      | none => s
      | some n => setCursor s n { getCursor s n with prev := c.prev }
  match newBlock with
  | none => setCursor s cid BCPtr.blank
  | some nb =>
    let nbRef := (getBlock s nb).referencingPtrs
    let s := setCursor s cid { getCursor s cid with prev := none, next := nbRef, ptr := newPos }
    let s :=
      match nbRef with
      | none => s
      | some n => setCursor s n { getCursor s n with prev := some cid }
    setBlock s nb { getBlock s nb with referencingPtrs := some cid }

/-- `BCPtr::BCPtr(Block *block, T *ptr)` (header lines 115–130): range-checks
the position (throwing `std::out_of_range`, modelled as `none`), then pushes
the new cursor `nid` onto the front of the block's cursor list. -/
def bcptrNew (s : CBState) (nid : Nat) (b : Nat) (p : Nat) : Option CBState :=
  let blk := getBlock s b
  if p < blk.blockStart ∨ p ≥ blk.blockStart + blk.blockLength then none
  else
    let oldHead := blk.referencingPtrs
    let s :=
      { s with cursors := (nid, { block := some b, ptr := some p, prev := none, next := oldHead }) :: s.cursors }
    let s :=
      match oldHead with
      | none => s
      | some h => setCursor s h { getCursor s h with prev := some nid }
    some (setBlock s b { getBlock s b with referencingPtrs := some nid })

/-- `BCPtr::BCPtr(const BCPtr &copy)` (header lines 137–145): delegates to
`BCPtr(copy.block, copy.ptr)` and then re-runs the list insertion in its own
body.  (Since the delegated constructor already made the new cursor the list
head, the body's `this->next = this->block->referencingPtrs` makes the new
cursor its own successor, detaching the rest of the list; we model the
statements exactly as written.)  Copying a blank cursor dereferences a null
block pointer in the delegated constructor; modelled as `none`. -/
def bcptrCopy (s : CBState) (nid : Nat) (src : Nat) : Option CBState :=
  let c := getCursor s src
  match c.block, c.ptr with
  | some b, some p =>
    match bcptrNew s nid b p with
    | none => none
    | some s =>
      let refs := (getBlock s b).referencingPtrs
      let s := setCursor s nid { getCursor s nid with next := refs, prev := none }
      let s :=
        match refs with
        | none => s
        | some h => setCursor s h { getCursor s h with prev := some nid }
      match (getBlock s b).referencingPtrs with
      | none => none
      | some h => some (setCursor s h { getCursor s h with prev := some nid })
  | _, _ => none

/-- `Block::getTailPassedYet()` (header lines 651–654).  The source reads
`return this->tailPassedYet == tailPassedYet;` — with no parameter in scope
both names denote the same member, so the comparison is of the field with
itself. -/
def getTailPassedYet (b : Block) : Bool := b.tailPassedYet == b.tailPassedYet

/-- `BlockCirclebuf::advanceTailToNextBlock()` (header lines 709–720).
Chooses the logical next block when that block's `prev` is the tail's block,
otherwise the physical next block, and sets its `tailPassedYet` flag — the
function never moves the `tail` cursor itself. -/
def advanceTailToNextBlock (s : CBState) : CBState :=
  let tb := (getCursor s s.tailC).block.getD 0
  let tblk := getBlock s tb
  let nextBlock :=
    if (getBlock s tblk.logicalNext).prev = tb then tblk.logicalNext else tblk.next
  setBlock s nextBlock { getBlock s nextBlock with tailPassedYet := true }

/-- The `while (!nextBlock->getTailPassedYet()) advanceTailToNextBlock();`
loop inside `advanceHeadToNextBlock` (header lines 733–735), with fuel. -/
def whileTailLoop : Nat → CBState → Nat → Option CBState
  | fuel, s, nb =>
    if !(getTailPassedYet (getBlock s nb)) then
      match fuel with
      | 0 => none
      | fuel + 1 => whileTailLoop fuel (advanceTailToNextBlock s) nb
    else some s

/-- `BlockCirclebuf::advanceHeadToNextBlock()` (header lines 725–739). -/
def advanceHeadToNextBlock (s : CBState) (fuel : Nat) : Option CBState :=
  let hb := (getCursor s s.headC).block.getD 0
  let hblk := getBlock s hb
  if !(getTailPassedYet (getBlock s hblk.next)) then
    let nb := hblk.next
    let s := setBlock s nb { getBlock s nb with tailPassedYet := false }
    some (cursorMove s s.headC (some nb) (some (getBlock s nb).blockStart))
  else
    let nb := hblk.logicalNext
    let s := setBlock s nb { getBlock s nb with prev := hb }
    match whileTailLoop fuel s nb with
    | none => none
    | some s =>
      let s := setBlock s nb { getBlock s nb with tailPassedYet := false }
      some (cursorMove s s.headC (some nb) (some (getBlock s nb).blockStart))

/-- The loop body of `BlockCirclebuf::write` (header lines 822–847), with
fuel for the outer `while (numRead < count)` loop.  Faithful detail: both
`memcpy` calls copy from `input` itself, *not* from `input + numRead`, so a
write that crosses a block boundary re-copies the start of the input. -/
def writeLoop : Nat → CBState → List Nat → Nat → Nat → Option CBState
  | 0, _, _, _, _ => none
  | fuel + 1, s, input, count, numRead =>
    if numRead < count then
      let numToRead := count - numRead
      let tc := getCursor s s.tailC
      let hc := getCursor s s.headC
      let s :=
        if tc.block = hc.block ∧
            ((tc.ptr.getD 0 : Int) - (hc.ptr.getD 0 : Int) < (numToRead : Int)) then
          advanceTailToNextBlock s
        else s
      let hc := getCursor s s.headC
      let hblk := getBlock s (hc.block.getD 0)
      let spaceLeftInBlock := hblk.blockStart + hblk.blockLength - hc.ptr.getD 0
      if numToRead < spaceLeftInBlock then
        let s := { s with mem := memcpyL s.mem (hc.ptr.getD 0) (input.take numToRead) }
        some (cursorMove s s.headC hc.block (some (hc.ptr.getD 0 + numToRead)))
      else
        let s := { s with mem := memcpyL s.mem (hc.ptr.getD 0) (input.take spaceLeftInBlock) }
        match advanceHeadToNextBlock s fuel with
        | none => none
        | some s => writeLoop fuel s input count (numRead + spaceLeftInBlock)
    else some s

/-- `BlockCirclebuf::write(const T *input, size_t count)` (lines 822–847).
Fuel `count + 2` covers every non-degenerate execution used in the claims
(each outer iteration either returns or makes progress through a block). -/
def writeOp (s : CBState) (input : List Nat) (count : Nat) : Option CBState :=
  writeLoop (count + 2) s input count 0

/-- Result of `BlockCirclebuf::read`: the returned element count, the state,
and the caller's output buffer; `crash` models the undefined behaviour of
`memcpy` into `buffer + numRead` when `buffer` is null (the source's
`memcpyIfNotNull` lambda, lines 858–862, checks the *source* pointer — which
is always the non-null tail pointer — instead of the destination);
`fuelOut` models non-termination of the `while` loop. -/
inductive RRes where
  | ok (count : Nat) (s : CBState) (out : List (Nat × Nat))
  | crash
  | fuelOut
  deriving Repr, DecidableEq

/-- The `memcpyIfNotNull` lambda of `read` (header lines 858–862), invoked as
`memcpyIfNotNull(buffer + numRead, src, n)`.  Its null check is on `src`
(always the tail pointer, never null), so a null `buffer` reaches `memcpy`;
a copy of `n > 0` elements through the null destination is undefined
behaviour, modelled as `none` (crash).  A zero-length copy is modelled as a
no-op. -/
def memcpyIfNotNull (buffer : Option (List (Nat × Nat))) (pos : Nat)
    (m : List (Nat × Nat)) (src : Nat) (n : Nat) :
    Option (Option (List (Nat × Nat))) :=
  if n = 0 then some buffer
  else
    match buffer with
    | none => none
    | some f =>
      some (some ((((List.range n).map fun i => (pos + i, readMem m (src + i)))) ++ f))

/-- The loop body of `BlockCirclebuf::read` (header lines 856–902), with
fuel.  Faithful detail: in the final `else` branch (block-boundary case,
lines 895–899) the source neither advances `numRead` nor moves `tail`
(`advanceTailToNextBlock` only sets a flag), so the loop re-runs on the same
state. -/
def readLoop : Nat → CBState → Option (List (Nat × Nat)) → Nat → Nat → RRes
  | 0, _, _, _, _ => .fuelOut
  | fuel + 1, s, buffer, count, numRead =>
    if numRead < count then
      let numToRead := count - numRead
      let hc := getCursor s s.headC
      let tc := getCursor s s.tailC
      if hc.block = tc.block then
        if (hc.ptr.getD 0 : Int) - (tc.ptr.getD 0 : Int) < (numToRead : Int) then
          let n := ((hc.ptr.getD 0 : Int) - (tc.ptr.getD 0 : Int)).toNat
          match memcpyIfNotNull buffer numRead s.mem (tc.ptr.getD 0) n with
          | none => .crash
          | some buffer =>
            let s := cursorMove s s.tailC tc.block hc.ptr
            .ok (numRead + n) s (buffer.getD [])
        else
          match memcpyIfNotNull buffer numRead s.mem (tc.ptr.getD 0) numToRead with
          | none => .crash
          | some buffer =>
            let s := cursorMove s s.tailC tc.block (some (tc.ptr.getD 0 + numToRead))
            .ok count s (buffer.getD [])
      else
        let tblk := getBlock s (tc.block.getD 0)
        let spaceLeftInBlock := tblk.blockStart + tblk.blockLength - tc.ptr.getD 0
        if numToRead < spaceLeftInBlock then
          match memcpyIfNotNull buffer numRead s.mem (tc.ptr.getD 0) numToRead with
          | none => .crash
          | some buffer =>
            let s := cursorMove s s.tailC tc.block (some (tc.ptr.getD 0 + numToRead))
            .ok count s (buffer.getD [])
        else
          match memcpyIfNotNull buffer numRead s.mem (tc.ptr.getD 0) spaceLeftInBlock with
          | none => .crash
          | some buffer => readLoop fuel (advanceTailToNextBlock s) buffer count numRead
    else .ok numRead s (buffer.getD [])

/-- `BlockCirclebuf::read(T *buffer, size_t count)` (lines 856–902). -/
def readOp (s : CBState) (buffer : Option (List (Nat × Nat))) (count : Nat) : RRes :=
  readLoop (count + 2) s buffer count 0

/-- `BlockCirclebuf::BlockCirclebuf(size_t size)` (header lines 747–761):
allocates superblock 0 (modelled at address 0), creates the initial block
with itself as physical and logical neighbour (private `Block` constructor,
lines 678–684, delegating to lines 343–397 with `next == this`), then
constructs `head` (cursor id 0) and `tail` (cursor id 1) at the block start.
`size = 0` makes the `BCPtr` range check throw, modelled as `none`. -/
def mkFresh (size : Nat) : Option CBState :=
  let b0 : Block :=
    { parentSuperblock := 0, blockStart := 0, blockLength := size, next := 0, prev := 0,
      logicalNext := 0, tailPassedYet := true, willReconcilePrev := false,
      willReconcileNext := false, referencingPtrs := none }
  let s0 : CBState := { blocks := [(0, b0)], cursors := [], mem := [], headC := 0, tailC := 1 }
  match bcptrNew s0 0 0 0 with
  | none => none
  | some s1 => bcptrNew s1 1 0 0

/-- The cursor-relink loop of `Block::attemptReconcileNext` (header lines
615–628): pops the head of `self`'s cursor list one node at a time, pointing
each cursor's `block` at `prev` and pushing it onto the front of `prev`'s
list. -/
def reconcileRelinkLoop : Nat → CBState → Nat → Nat → Option CBState
  | 0, _, _, _ => none
  | fuel + 1, s, self, prev =>
    match (getBlock s self).referencingPtrs with
    | none => some s
    | some cid =>
      let s := setCursor s cid { getCursor s cid with block := some prev }
      let prevRefs := (getBlock s prev).referencingPtrs
      let s :=
        match prevRefs with
        | none => s
        | some pc => setCursor s pc { getCursor s pc with prev := some cid }
      let s := setBlock s self { getBlock s self with referencingPtrs := (getCursor s cid).next }
      let s := setCursor s cid { getCursor s cid with next := prevRefs }
      let s := setBlock s prev { getBlock s prev with referencingPtrs := some cid }
      reconcileRelinkLoop fuel s self prev

/-- The `while (referencingPtrs)` loop of `Block::~Block` (header lines
407–411): saves the head cursor's `next`, `move`s the head cursor to
`(nullptr, nullptr)` (which unlinks and blanks it), then re-reads the saved
`next` into the member. -/
def blockDtorCursorLoop : Nat → CBState → Nat → Option CBState
  | 0, _, _ => none
  | fuel + 1, s, self =>
    match (getBlock s self).referencingPtrs with
    | none => some s
    | some cid =>
      let nxt := (getCursor s cid).next
      let s := cursorMove s cid none none
      let s := setBlock s self { getBlock s self with referencingPtrs := nxt }
      blockDtorCursorLoop fuel s self

/-- `Block::~Block()` (header lines 399–413): splices the block out of the
physical chain (`prev->next = next; next->prev = prev;` — live blocks never
have null chain pointers), then blanks every cursor still registered on the
block. -/
def blockDtorEffects (s : CBState) (self : Nat) (fuel : Nat) : Option CBState :=
  let b := getBlock s self
  let s := setBlock s b.prev { getBlock s b.prev with next := b.next }
  let s := setBlock s b.next { getBlock s b.next with prev := b.prev }
  blockDtorCursorLoop fuel s self

/-- `delete block` (ring teardown in `~BlockCirclebuf`, lines 763–772, and
move-assignment cleanup, lines 776–790): runs the destructor and releases the
allocation (removal from the block heap). -/
def destroyBlock (s : CBState) (self : Nat) (fuel : Nat) : Option CBState :=
  (blockDtorEffects s self fuel).map fun s => { s with blocks := removeA s.blocks self }

/-- The final head-cursor fixup of the merge path (header lines 630–631):
`if (prev->referencingPtrs) prev->referencingPtrs->prev = nullptr;`. -/
def reconcileHeadFix (s : CBState) (p : Nat) : CBState :=
  match (getBlock s p).referencingPtrs with
  | none => s
  | some pc => setCursor s pc { getCursor s pc with prev := none }

/-- The tail end of the merge path (header lines 630–635): the head-cursor
fixup, then `this->~Block()` followed by `delete this` (both destructor
executions modelled, as written at lines 633–634), then release of the
block's allocation. -/
def reconcileFinish (s : CBState) (self p : Nat) (fuel : Nat) :
    Option (Bool × CBState) :=
  (blockDtorEffects (reconcileHeadFix s p) self fuel).bind fun s =>
    (blockDtorEffects s self fuel).bind fun s =>
      some (true, { s with blocks := removeA s.blocks self })

/-- The state mutations of the merge path before the relink loop (header
lines 609–613): extends `prev` by `this`'s length, splices `this` out of the
physical chain, and clears `prev->willReconcileNext`. -/
def reconcileSplice (s : CBState) (self : Nat) : CBState :=
  let b := getBlock s self
  let p := b.prev
  let s := setBlock s p
    { getBlock s p with blockLength := (getBlock s p).blockLength + b.blockLength }
  let s := setBlock s p { getBlock s p with next := b.next }
  let s := setBlock s b.next { getBlock s b.next with prev := p }
  setBlock s p { getBlock s p with willReconcileNext := false }

/-- The merge path of `Block::attemptReconcileNext()` (header lines
609–635), reached once all three guards have passed: splice, cursor relink
loop, and the finishing destruction. -/
def reconcileMergeBody (s : CBState) (self : Nat) (fuel : Nat) :
    Option (Bool × CBState) :=
  let p := (getBlock s self).prev
  (reconcileRelinkLoop fuel (reconcileSplice s self) self p).bind fun s =>
    reconcileFinish s self p fuel

/-- `Block::attemptReconcileNext()` (header lines 594–636).  Despite its
name, it merges `this` into its *physical predecessor* `prev`: refuses
(returning `false` with no mutation) when the ring is a singleton, the
superblocks differ, or the blocks are not byte-adjacent; otherwise performs
the merge (`reconcileMergeBody`). -/
def attemptReconcileNext (s : CBState) (self : Nat) (fuel : Nat) :
    Option (Bool × CBState) :=
  let b := getBlock s self
  let p := b.prev
  if p = self then some (false, s)
  else if (getBlock s p).parentSuperblock ≠ b.parentSuperblock then some (false, s)
  else if (getBlock s p).blockStart + (getBlock s p).blockLength ≠ b.blockStart then
    some (false, s)
  else reconcileMergeBody s self fuel

/-- `Block::attemptReconcilePrev()` (header lines 583–586).  The source body
is `return next->attemptReconcilePrev();` — it recurses on the next block of
the circular chain without ever reaching a base case. -/
def attemptReconcilePrevFuel : Nat → CBState → Nat → Option (Bool × CBState)
  | 0, _, _ => none
  | fuel + 1, s, self => attemptReconcilePrevFuel fuel s (getBlock s self).next

/-- The error signalled by the split entry points. -/
inductive SplitErr where
  | outOfRange
  | wrongBlock
  deriving Repr, DecidableEq

/-- The range guard of `Block::split(T *splitPoint, const BlockCirclebuf&)`
(header lines 431–434): throws `std::out_of_range` iff
`splitPoint < blockStart || splitPoint > blockStart + blockLength`; any other
point — including both boundary points — is accepted and control proceeds to
create the new block. -/
def splitRangeCheck (b : Block) (splitPoint : Nat) : Except SplitErr Unit :=
  if splitPoint < b.blockStart ∨ splitPoint > b.blockStart + b.blockLength then
    .error .outOfRange
  else .ok ()

/-- The guard of `Block::split(const BCPtr &splitPoint)` (header lines
528–534): throws iff the cursor references a different block, then forwards
the cursor's raw pointer to the positional split (whose own guard is
`splitRangeCheck`). -/
def splitBCPtrCheck (s : CBState) (self : Nat) (atC : Nat) : Except SplitErr Unit :=
  if (getCursor s atC).block ≠ some self then .error .wrongBlock
  else splitRangeCheck (getBlock s self) ((getCursor s atC).ptr.getD 0)

/-! ### Derived observers used by the claims -/

/-- The list of cursor ids reachable from a list head by following `next`
links, cut off by fuel (cursor lists in corrupted states can be cyclic). -/
def cursorChainFrom (s : CBState) : Nat → Option Nat → List Nat
  | 0, _ => []
  | _, none => []
  | fuel + 1, some c => c :: cursorChainFrom s fuel (getCursor s c).next

/-- The cursor list of block `b`. -/
def cursorChain (s : CBState) (fuel : Nat) (b : Nat) : List Nat :=
  cursorChainFrom s fuel (getBlock s b).referencingPtrs

/-- The ids of the live blocks. -/
def blockIds (s : CBState) : List Nat := s.blocks.map Prod.fst

/-- Sequential writes: `applyWrites s [w₁, …, wₖ]` performs
`write(wᵢ, wᵢ.length)` in order. -/
def applyWrites : CBState → List (List Nat) → Option CBState
  | s, [] => some s
  | s, w :: ws =>
    match writeOp s w w.length with
    | none => none
    | some s => applyWrites s ws

/-- Sequential reads into fresh buffers: `applyReads s [c₁, …, cₖ]` performs
`read(buf, cᵢ)` in order and concatenates the elements delivered. -/
def applyReads : CBState → List Nat → Option (CBState × List Nat)
  | s, [] => some (s, [])
  | s, c :: cs =>
    match readOp s (some []) c with
    | .ok n s out =>
      match applyReads s cs with
      | none => none
      | some (s', rest) => some (s', ((List.range n).map fun i => (lookupA out i).getD 0) ++ rest)
    | _ => none

/-- Construct a buffer of capacity `cap`, perform the writes `ws`, then the
reads `rs`, and return the concatenation of all elements delivered by the
reads. -/
def roundTrip (cap : Nat) (ws : List (List Nat)) (rs : List Nat) : Option (List Nat) :=
  match mkFresh cap with
  | none => none
  | some s =>
    match applyWrites s ws with
    | none => none
    | some s =>
      match applyReads s rs with
      | none => none
      | some (_, out) => some out

/-! ### Concrete states used by the claim theorems -/

instance : Inhabited CBState :=
  ⟨{ blocks := [], cursors := [], mem := [], headC := 0, tailC := 1 }⟩

/-- Convenience constructor for a block record (superblock, start, length,
next, prev, logicalNext, tailPassedYet, referencingPtrs; the reconcile-request
flags are false). -/
def mkBlock (sb st len nx pv ln : Nat) (tp : Bool) (rp : Option Nat) : Block :=
  { parentSuperblock := sb, blockStart := st, blockLength := len, next := nx, prev := pv,
    logicalNext := ln, tailPassedYet := tp, willReconcilePrev := false,
    willReconcileNext := false, referencingPtrs := rp }

/-- Three-block configuration for the head re-entry claim: block 0 covers
[0,2) and holds the head cursor at address 1; block 1 covers [2,4) and has
`tailPassedYet = false` (a reactivated block the tail has not passed); block
2 covers [4,6) and holds the tail cursor.  The physical and logical chains
agree: 0 → 1 → 2 → 0. -/
def c3PreState : CBState :=
  { blocks := [(0, mkBlock 0 0 2 1 2 1 true (some 0)),
               (1, mkBlock 0 2 2 2 0 2 false none),
               (2, mkBlock 0 4 2 0 1 0 true (some 1))],
    cursors := [(0, { block := some 0, ptr := some 1, next := none, prev := none }),
                (1, { block := some 2, ptr := some 4, next := none, prev := none })],
    mem := [], headC := 0, tailC := 1 }

/-- The state after writing one element to `c3PreState`, which forces the
head across the block-0/block-1 boundary. -/
def c3PostState : CBState := (writeOp c3PreState [9] 1).getD default

/-- Two-block configuration for the merge-refusal claim: blocks 0 = [0,2) and
1 = [2,4) are physically adjacent in the same superblock, but block 1 is
excluded from the logical rotation — every `logicalNext` pointer (block 0's
and block 1's own) bypasses it and targets block 0.  The head and tail
cursors sit in block 0. -/
def c8State : CBState :=
  { blocks := [(0, mkBlock 0 0 2 1 1 0 true (some 0)),
               (1, mkBlock 0 2 2 0 0 0 true none)],
    cursors := [(0, { block := some 0, ptr := some 0, next := some 1, prev := none }),
                (1, { block := some 0, ptr := some 0, next := none, prev := some 0 })],
    mem := [], headC := 0, tailC := 1 }

/-- The state after copy-constructing cursor 2 from the head cursor of a
fresh 4-element buffer. -/
def c9PostState : CBState := ((mkFresh 4).bind fun s => bcptrCopy s 2 s.headC).getD default

/-- A block covering [0,4), used to probe the split range guard. -/
def c7Block : Block := mkBlock 0 0 4 0 0 0 true none

/-- Whether a read result is the undefined-behaviour (null-destination
`memcpy`) outcome. -/
def RRes.isCrash : RRes → Bool
  | .crash => true
  | _ => false

/-- Single-block state in cursor-list layout A (the layout `mkFresh`
produces, and the one a tail move re-establishes): the block's cursor list is
tail-then-head.  `m` is the memory log, `h` and `t` the head and tail
addresses. -/
def midA (cap : Nat) (m : List (Nat × Nat)) (h t : Nat) : CBState :=
  { blocks := [(0, mkBlock 0 0 cap 0 0 0 true (some 1))],
    cursors := [(1, { block := some 0, ptr := some t, next := some 0, prev := none }),
                (0, { block := some 0, ptr := some h, next := none, prev := some 1 })],
    mem := m, headC := 0, tailC := 1 }

/-- Single-block state in cursor-list layout B (the layout a head move
establishes): the block's cursor list is head-then-tail. -/
def midB (cap : Nat) (m : List (Nat × Nat)) (h t : Nat) : CBState :=
  { blocks := [(0, mkBlock 0 0 cap 0 0 0 true (some 0))],
    cursors := [(1, { block := some 0, ptr := some t, next := none, prev := some 0 }),
                (0, { block := some 0, ptr := some h, next := some 1, prev := none })],
    mem := m, headC := 0, tailC := 1 }

/-- Single-block state in either cursor-list layout. -/
def midL (lay : Bool) (cap : Nat) (m : List (Nat × Nat)) (h t : Nat) : CBState :=
  if lay then midB cap m h t else midA cap m h t

/-- The memory log `m` holds `data` at addresses `0, …, data.length - 1`. -/
def memMatches (m : List (Nat × Nat)) (data : List Nat) : Prop :=
  ∀ i, i < data.length → readMem m i = data.getD i 0

/-- The result of `read(nullptr, 1)` on a fresh 2-element buffer holding one
unread element. -/
def c4ReadResult : Option RRes :=
  match mkFresh 2 with
  | none => none
  | some s =>
    match writeOp s [7] 1 with
    | none => none
    | some s1 => some (readOp s1 none 1)


/-! ## Helper lemmas -/

/-- The merge path of `attemptReconcileNext` never returns `false`: once the
three guards pass, the only outcomes are fuel exhaustion or a successful
merge. -/
lemma reconcileFinish_ne_false (s : CBState) (self p fuel : Nat) (r : CBState) :
    reconcileFinish s self p fuel ≠ some (false, r) := by
  intro h
  unfold reconcileFinish at h
  rw [Option.bind_eq_some] at h
  obtain ⟨s1, -, h⟩ := h
  rw [Option.bind_eq_some] at h
  obtain ⟨s2, -, h⟩ := h
  simp at h

lemma reconcileMergeBody_ne_false (s : CBState) (self fuel : Nat) (r : CBState) :
    reconcileMergeBody s self fuel ≠ some (false, r) := by
  intro h
  unfold reconcileMergeBody at h
  rw [Option.bind_eq_some] at h
  obtain ⟨s1, -, h⟩ := h
  exact reconcileFinish_ne_false _ _ _ _ _ h

lemma readMem_cons (k v : Nat) (m : List (Nat × Nat)) (a : Nat) :
    readMem ((k, v) :: m) a = if k = a then v else readMem m a := by
  simp only [readMem, lookupA]
  split <;> rfl

lemma readMem_memcpyL (data : List Nat) : ∀ (m : List (Nat × Nat)) (dst a : Nat),
    readMem (memcpyL m dst data) a =
      if dst ≤ a ∧ a < dst + data.length then data.getD (a - dst) 0 else readMem m a := by
  induction data with
  | nil =>
    intro m dst a
    rw [memcpyL]
    rw [if_neg (by simp only [List.length_nil]; omega)]
  | cons d rest ih =>
    intro m dst a
    rw [memcpyL, ih, readMem_cons]
    rcases Nat.lt_trichotomy a dst with hlt | heq | hgt
    · rw [if_neg (by omega), if_neg (by omega),
        if_neg (by simp only [List.length_cons]; omega)]
    · subst heq
      rw [if_neg (by omega), if_pos rfl,
        if_pos (by simp only [List.length_cons]; omega)]
      simp
    · by_cases hin : a < dst + 1 + rest.length
      · rw [if_pos (by omega), if_pos (by simp only [List.length_cons]; omega)]
        have : a - dst = (a - (dst + 1)) + 1 := by omega
        rw [this]
        simp
      · rw [if_neg (by omega), if_neg (by omega),
          if_neg (by simp only [List.length_cons]; omega)]

lemma memMatches_memcpyL (m : List (Nat × Nat)) (data w : List Nat)
    (hm : memMatches m data) : memMatches (memcpyL m data.length w) (data ++ w) := by
  intro i hi
  rw [readMem_memcpyL]
  simp only [List.length_append] at hi
  by_cases h : data.length ≤ i
  · rw [if_pos ⟨h, by omega⟩, List.getD_append_right _ _ _ _ h]
  · rw [if_neg (by omega), List.getD_append _ _ _ _ (by omega), hm i (by omega)]

lemma writeOp_zero (s : CBState) (w : List Nat) : writeOp s w 0 = some s := rfl

lemma writeOp_stepA (cap t h c : Nat) (m : List (Nat × Nat)) (w : List Nat)
    (hc : 0 < c) (hth : t ≤ h) (hlt : h + c < cap) :
    writeOp (midA cap m h t) w c = some (midB cap (memcpyL m h (w.take c)) (h + c) t) := by
  have h1 : ((t : Int) - (h : Int) < (c : Int)) := by omega
  have h2 : c < cap - h := by omega
  simp [writeOp, writeLoop, midA, midB, mkBlock, advanceTailToNextBlock, cursorMove,
    getCursor, getBlock, setCursor, setBlock, lookupA, updateA, h1, h2, hc]

lemma writeOp_stepB (cap t h c : Nat) (m : List (Nat × Nat)) (w : List Nat)
    (hc : 0 < c) (hth : t ≤ h) (hlt : h + c < cap) :
    writeOp (midB cap m h t) w c = some (midB cap (memcpyL m h (w.take c)) (h + c) t) := by
  have h1 : ((t : Int) - (h : Int) < (c : Int)) := by omega
  have h2 : c < cap - h := by omega
  simp [writeOp, writeLoop, midA, midB, mkBlock, advanceTailToNextBlock, cursorMove,
    getCursor, getBlock, setCursor, setBlock, lookupA, updateA, h1, h2, hc]

lemma readOp_zero (s : CBState) (buf : Option (List (Nat × Nat))) :
    readOp s buf 0 = .ok 0 s (buf.getD []) := rfl

lemma readOp_stepB (cap n r c : Nat) (m : List (Nat × Nat))
    (hc : 0 < c) (hrc : r + c ≤ n) :
    readOp (midB cap m n r) (some []) c =
      .ok c (midA cap m n (r + c)) ((List.range c).map fun i => (i, readMem m (r + i))) := by
  have h1 : ¬((n : Int) - (r : Int) < (c : Int)) := by omega
  have h2 : c ≠ 0 := by omega
  simp [readOp, readLoop, midA, midB, mkBlock, memcpyIfNotNull, cursorMove,
    getCursor, getBlock, setCursor, setBlock, lookupA, updateA, h1, h2]

lemma readOp_stepA (cap n r c : Nat) (m : List (Nat × Nat))
    (hc : 0 < c) (hrc : r + c ≤ n) :
    readOp (midA cap m n r) (some []) c =
      .ok c (midA cap m n (r + c)) ((List.range c).map fun i => (i, readMem m (r + i))) := by
  have h1 : ¬((n : Int) - (r : Int) < (c : Int)) := by omega
  have h2 : c ≠ 0 := by omega
  simp [readOp, readLoop, midA, midB, mkBlock, memcpyIfNotNull, cursorMove,
    getCursor, getBlock, setCursor, setBlock, lookupA, updateA, h1, h2]

lemma lookupA_append {α : Type} (l1 l2 : List (Nat × α)) (k : Nat) :
    lookupA (l1 ++ l2) k = ((lookupA l1 k).or (lookupA l2 k)) := by
  induction l1 with
  | nil => simp [lookupA]
  | cons p r ih =>
    obtain ⟨k1, v⟩ := p
    simp only [List.cons_append, lookupA]
    split
    · rfl
    · exact ih

lemma lookupA_rangeMap (c : Nat) (g : Nat → Nat) (j : Nat) :
    lookupA ((List.range c).map fun i => (i, g i)) j =
      if j < c then some (g j) else none := by
  induction c with
  | zero => simp [lookupA]
  | succ c ih =>
    rw [List.range_succ, List.map_append, lookupA_append, ih]
    by_cases h : j < c
    · rw [if_pos h, if_pos (by omega)]
      rfl
    · rw [if_neg h]
      by_cases h2 : j = c
      · subst h2
        simp [lookupA, if_pos rfl]
      · rw [if_neg (by omega)]
        simp [lookupA, h2]
        intro hco
        exact absurd hco.symm h2

lemma extract_out (c r : Nat) (m : List (Nat × Nat)) :
    (List.range c).map
        (fun i => (lookupA ((List.range c).map fun j => (j, readMem m (r + j))) i).getD 0) =
      (List.range c).map fun i => readMem m (r + i) := by
  apply List.map_congr_left
  intro i hi
  rw [List.mem_range] at hi
  rw [lookupA_rangeMap, if_pos hi]
  rfl

lemma range_map_getD_concat (data : List Nat) (r c q : Nat) :
    ((List.range c).map fun i => data.getD (r + i) 0) ++
        ((List.range q).map fun j => data.getD (r + c + j) 0) =
      (List.range (c + q)).map fun j => data.getD (r + j) 0 := by
  rw [List.range_add, List.map_append, List.map_map]
  congr 1
  apply List.map_congr_left
  intro i _
  simp only [Function.comp_apply]
  congr 1
  omega

lemma range_map_getD_self (data : List Nat) :
    (List.range data.length).map (fun j => data.getD j 0) = data := by
  induction data with
  | nil => simp
  | cons d rest ih =>
    rw [List.length_cons, List.range_succ_eq_map]
    simp only [List.map_cons, List.map_map]
    have hmap : (List.range rest.length).map ((fun j => (d :: rest).getD j 0) ∘ Nat.succ)
        = (List.range rest.length).map fun j => rest.getD j 0 :=
      List.map_congr_left fun i _ => rfl
    rw [hmap, ih]
    rfl

lemma mkFresh_eq (cap : Nat) (h : 0 < cap) : mkFresh cap = some (midA cap [] 0 0) := by
  have h2 : ¬cap ≤ 0 := by omega
  simp [mkFresh, bcptrNew, midA, mkBlock, getBlock, setBlock, setCursor, getCursor,
    lookupA, updateA, h2]

lemma applyWrites_mid (ws : List (List Nat)) :
    ∀ (lay : Bool) (cap : Nat) (m : List (Nat × Nat)) (data : List Nat),
      data.length + (ws.map List.length).sum < cap →
      memMatches m data →
      ∃ lay' m', applyWrites (midL lay cap m data.length 0) ws =
          some (midL lay' cap m' (data.length + (ws.map List.length).sum) 0) ∧
        memMatches m' (data ++ ws.flatten) := by
  induction ws with
  | nil =>
    intro lay cap m data hcap hm
    exact ⟨lay, m, by simp [applyWrites], by simpa using hm⟩
  | cons w ws ih =>
    intro lay cap m data hcap hm
    simp only [List.map_cons, List.sum_cons] at hcap
    by_cases hw : w.length = 0
    · rw [List.length_eq_zero] at hw
      subst hw
      obtain ⟨lay', m', heq, hm'⟩ := ih lay cap m data (by simpa using hcap) hm
      refine ⟨lay', m', ?_, by simpa using hm'⟩
      rw [applyWrites]
      rw [show writeOp (midL lay cap m data.length 0) [] [].length =
        some (midL lay cap m data.length 0) from rfl]
      simpa using heq
    · have hw' : 0 < w.length := Nat.pos_of_ne_zero hw
      have hstep : writeOp (midL lay cap m data.length 0) w w.length =
          some (midB cap (memcpyL m data.length w) (data.length + w.length) 0) := by
        cases lay
        · simpa [midL, List.take_length] using
            writeOp_stepA cap 0 data.length w.length m w hw' (by omega) (by omega)
        · simpa [midL, List.take_length] using
            writeOp_stepB cap 0 data.length w.length m w hw' (by omega) (by omega)
      have hm1 : memMatches (memcpyL m data.length w) (data ++ w) :=
        memMatches_memcpyL m data w hm
      have hlen : (data ++ w).length = data.length + w.length := by simp
      obtain ⟨lay', m', heq, hm'⟩ :=
        ih true cap (memcpyL m data.length w) (data ++ w) (by rw [hlen]; omega) hm1
      rw [hlen] at heq
      refine ⟨lay', m', ?_, by simpa [List.append_assoc] using hm'⟩
      simp only [applyWrites, hstep]
      rw [show midB cap (memcpyL m data.length w) (data.length + w.length) 0 =
        midL true cap (memcpyL m data.length w) (data.length + w.length) 0 from rfl]
      rw [heq, List.map_cons, List.sum_cons, Nat.add_assoc]

lemma applyReads_mid (rs : List Nat) :
    ∀ (lay : Bool) (cap : Nat) (m : List (Nat × Nat)) (data : List Nat) (r : Nat),
      r + rs.sum ≤ data.length →
      memMatches m data →
      ∃ lay', applyReads (midL lay cap m data.length r) rs =
          some (midL lay' cap m data.length (r + rs.sum),
            (List.range rs.sum).map fun j => data.getD (r + j) 0) := by
  induction rs with
  | nil =>
    intro lay cap m data r hr hm
    exact ⟨lay, by simp [applyReads]⟩
  | cons c rs ih =>
    intro lay cap m data r hr hm
    simp only [List.sum_cons] at hr
    by_cases hc : c = 0
    · subst hc
      obtain ⟨lay', heq⟩ := ih lay cap m data r (by omega) hm
      refine ⟨lay', ?_⟩
      rw [applyReads, readOp_zero]
      simp only [Option.getD_some, heq, List.range_zero, List.map_nil, List.nil_append,
        List.sum_cons, Nat.zero_add]
    · have hc' : 0 < c := Nat.pos_of_ne_zero hc
      have hstep : readOp (midL lay cap m data.length r) (some []) c =
          .ok c (midA cap m data.length (r + c))
            ((List.range c).map fun i => (i, readMem m (r + i))) := by
        cases lay
        · exact readOp_stepA cap data.length r c m hc' (by omega)
        · exact readOp_stepB cap data.length r c m hc' (by omega)
      obtain ⟨lay', heq⟩ := ih false cap m data (r + c) (by omega) hm
      refine ⟨lay', ?_⟩
      have hmid : midA cap m data.length (r + c) = midL false cap m data.length (r + c) := rfl
      simp only [applyReads, hstep, hmid, heq, List.sum_cons]
      have hout : (List.range c).map
            (fun i => (lookupA ((List.range c).map fun j => (j, readMem m (r + j))) i).getD 0) =
          (List.range c).map fun i => data.getD (r + i) 0 := by
        rw [extract_out]
        apply List.map_congr_left
        intro i hi
        rw [List.mem_range] at hi
        exact hm (r + i) (by omega)
      rw [hout, range_map_getD_concat data r c rs.sum, Nat.add_assoc]

/-- Well-formedness of one block's intrusive `referencingPtrs` cursor list
(invariant I5): starting from `pv` as the expected back-pointer, the chain of
`next` links visits exactly the cursor ids `cs`, each registered cursor exists,
records this block in its `block` field, and has the correct `prev` link. -/
def listWFfrom (s : CBState) (b : Nat) : Option Nat → Option Nat → List Nat → Bool
  | _, none, [] => true
  | pv, some c, c' :: rest =>
    decide (c = c') && (lookupA s.cursors c).isSome &&
    decide ((getCursor s c).block = some b) && decide ((getCursor s c).prev = pv) &&
    listWFfrom s b (some c) (getCursor s c).next rest
  | _, none, _ :: _ => false
  | _, some _, [] => false

/-- The cursor list of block `b`, walked from its `referencingPtrs` head. -/
def blockListWF (s : CBState) (b : Nat) (cs : List Nat) : Bool :=
  listWFfrom s b none (getBlock s b).referencingPtrs cs

/-- Three-block chain 0 <-> 1 <-> 2 in which block 1 carries one registered
cursor (id 2); destroying block 1 must blank that cursor and splice 0 and 2
together. -/
def c10State : CBState :=
  { blocks := [(0, mkBlock 0 0 2 1 2 1 true none),
               (1, mkBlock 0 2 2 2 0 2 true (some 2)),
               (2, mkBlock 0 4 2 0 1 0 true none)],
    cursors := [(0, { block := some 0, ptr := some 0, next := none, prev := none }),
                (1, { block := some 0, ptr := some 0, next := none, prev := none }),
                (2, { block := some 1, ptr := some 2, next := none, prev := none })],
    mem := [], headC := 0, tailC := 1 }

/-- One step of the address walk that the buffer's data traversal performs
over the physical chain (the path `write`/`read` take, header lines 822–847
and 856–902): after consuming the cell at `pos` inside block `b`, either stay
inside the block or move to the start of the physical next block. -/
def nextAddr (s : CBState) (b pos : Nat) : Nat × Nat :=
  if pos + 1 < (getBlock s b).blockStart + (getBlock s b).blockLength then (b, pos + 1)
  else ((getBlock s b).next, (getBlock s (getBlock s b).next).blockStart)

/-- The sequence of `n` memory addresses visited by the walk starting at
position `pos` of block `b`: the logical positions at which buffered data is
stored and read back. -/
def readAddrs (s : CBState) : Nat → Nat → Nat → List Nat
  | 0, _, _ => []
  | n + 1, b, pos => pos :: readAddrs s n (nextAddr s b pos).1 (nextAddr s b pos).2

/-- Two-block configuration for the merge postcondition claim: block 0 =
[0,2) and block 1 = [2,4) are byte-adjacent blocks of superblock 0 forming
the physical ring 0 ↔ 1.  The head (id 0) and tail (id 1) cursors are
registered on block 0 (list `[0, 1]`), and one further cursor (id 2) is
registered on block 1 (list `[2]`), so a merge of block 1 into block 0 must
relink cursor 2. -/
def c6State : CBState :=
  { blocks := [(0, mkBlock 0 0 2 1 1 0 true (some 0)),
               (1, mkBlock 0 2 2 0 0 0 true (some 2))],
    cursors := [(0, { block := some 0, ptr := some 0, next := some 1, prev := none }),
                (1, { block := some 0, ptr := some 0, next := none, prev := some 0 }),
                (2, { block := some 1, ptr := some 2, next := none, prev := none })],
    mem := [], headC := 0, tailC := 1 }

/-! ## Claim theorems -/

/-- Claim C1, counterexample: the round-trip property fails when the total
write length equals the capacity (the claim allows capacity ≥ n).  With
capacity 1, writing one element and reading one element delivers nothing:
the write wraps the head back onto the tail, making the buffer look empty,
so the read returns 0 elements instead of the element written. -/
theorem c1_roundTrip_at_exact_capacity_fails :
    roundTrip 1 [[5]] [1] = some [] ∧ ([] : List Nat) ≠ [5] := by
  constructor
  · simp [roundTrip, applyWrites, applyReads, mkFresh, bcptrNew, writeOp, writeLoop,
      readOp, readLoop, advanceTailToNextBlock, advanceHeadToNextBlock, whileTailLoop,
      getTailPassedYet, cursorMove, getCursor, setCursor, getBlock, setBlock, lookupA,
      updateA, readMem, memcpyL, memcpyIfNotNull, BCPtr.blank]
  · simp

/-- Claim C2: the repository's own WriteWraparound test writes "123" into a
capacity-2 ring and expects the first element read back to be '2' (the
tail-most 2 elements of the stream, as the claim states).  The code instead
delivers '1': the overflow path re-copies the start of the input (the
`memcpy` calls never offset `input` by `numRead`) and `advanceTailToNextBlock`
never moves the tail cursor. -/
theorem c2_overflow_keeps_wrong_element :
    roundTrip 2 [[1, 2, 3]] [1] = some [1] ∧ ([1] : List Nat) ≠ [2] := by
  constructor
  · simp [roundTrip, applyWrites, applyReads, mkFresh, bcptrNew, writeOp, writeLoop,
      readOp, readLoop, advanceTailToNextBlock, advanceHeadToNextBlock, whileTailLoop,
      getTailPassedYet, cursorMove, getCursor, setCursor, getBlock, setBlock, lookupA,
      updateA, readMem, memcpyL, memcpyIfNotNull, BCPtr.blank]
    decide
  · simp

set_option maxHeartbeats 800000 in
set_option maxHeartbeats 1000000 in
/-- Claim C3: in `c3PreState` block 1 (covering addresses [2,4)) has
`tailPassedYet = false` and the tail cursor sits in block 2, yet writing one
element moves the head cursor to address 2 — the start of block 1 — and
registers it in block 1's cursor list, while the tail cursor does not move at
all.  The guard documented in the source (`getTailPassedYet`) compares the
flag with itself and therefore always returns true, and the forced-tail loop
of `advanceHeadToNextBlock` therefore never runs. -/
theorem c3_head_enters_unpassed_block :
    (getBlock c3PreState 1).tailPassedYet = false ∧
    (getBlock c3PreState 1).blockStart = 2 ∧
    (writeOp c3PreState [9] 1).isSome = true ∧
    (getCursor c3PostState 0).ptr = some 2 ∧
    (getBlock c3PostState 1).referencingPtrs = some 0 ∧
    getCursor c3PostState 1 = getCursor c3PreState 1 := by
  simp [c3PostState, c3PreState, mkBlock, writeOp, writeLoop, advanceTailToNextBlock,
    advanceHeadToNextBlock, whileTailLoop, getTailPassedYet, cursorMove, getCursor,
    setCursor, getBlock, setBlock, lookupA, updateA, readMem, memcpyL, BCPtr.blank]

set_option maxHeartbeats 1000000 in
/-- Claim C4: reading one element with a null buffer from a buffer holding
one unread element reaches `memcpy(nullptr, tail, 1)` — the null check in the
source's `memcpyIfNotNull` lambda tests the source pointer (the tail, never
null) instead of the destination — so the discard-sink read is undefined
behaviour instead of returning 1. -/
theorem c4_null_buffer_read_crashes :
    c4ReadResult.map RRes.isCrash = some true := by
  simp [c4ReadResult, RRes.isCrash, mkFresh, bcptrNew, writeOp, writeLoop, readOp,
    readLoop, advanceTailToNextBlock, advanceHeadToNextBlock, whileTailLoop,
    getTailPassedYet, cursorMove, getCursor, setCursor, getBlock, setBlock, lookupA,
    updateA, readMem, memcpyL, memcpyIfNotNull, BCPtr.blank]

/-- Claim C7, counterexample: the range guard of split accepts both boundary
points of a block covering [0,4) (the source only rejects
`splitPoint < blockStart || splitPoint > blockStart + blockLength`), whereas
the claim requires boundary splits to fail with an InvalidSplitPoint-style
error. -/
theorem c7_boundary_split_points_accepted :
    splitRangeCheck c7Block c7Block.blockStart = .ok () ∧
    splitRangeCheck c7Block (c7Block.blockStart + c7Block.blockLength) = .ok () :=
  ⟨rfl, rfl⟩

/-- Claim C7, amended: the positional split guard throws exactly on points
strictly outside the closed interval [start, start+length] (so both boundary
points are accepted and proceed to create a new — possibly empty — block),
and the cursor overload throws the wrong-block error exactly when the cursor
references a different block. -/
theorem c7_split_guard_characterization :
    (∀ (b : Block) (p : Nat),
      (splitRangeCheck b p = .ok () ↔
        b.blockStart ≤ p ∧ p ≤ b.blockStart + b.blockLength) ∧
      (splitRangeCheck b p = .error .outOfRange ↔
        (p < b.blockStart ∨ b.blockStart + b.blockLength < p))) ∧
    (∀ (s : CBState) (self atC : Nat),
      splitBCPtrCheck s self atC = .error .wrongBlock ↔
        (getCursor s atC).block ≠ some self) := by
  refine ⟨fun b p => ⟨?_, ?_⟩, fun s self atC => ?_⟩
  · unfold splitRangeCheck
    split
    · rename_i h
      constructor
      · intro hco
        exact absurd hco (by simp)
      · intro hco
        exfalso
        rcases h with h | h <;> omega
    · rename_i h
      push_neg at h
      exact ⟨fun _ => ⟨h.1, by omega⟩, fun _ => rfl⟩
  · unfold splitRangeCheck
    split
    · rename_i h
      constructor
      · intro _
        rcases h with h | h
        · exact Or.inl h
        · exact Or.inr (by omega)
      · intro _
        rfl
    · rename_i h
      push_neg at h
      constructor
      · intro hco
        exact absurd hco (by simp)
      · intro hco
        exfalso
        rcases hco with hco | hco <;> omega
  · unfold splitBCPtrCheck
    split
    · rename_i h
      exact ⟨fun _ => h, fun _ => rfl⟩
    · rename_i h
      constructor
      · intro hco
        unfold splitRangeCheck at hco
        split at hco <;> simp_all
      · intro hco
        exact absurd hco (by simpa using h)

set_option maxHeartbeats 1000000 in
/-- Claim C8, counterexample: in `c8State` blocks 0 and 1 are physically
adjacent in the same superblock, and block 1 is excluded from the logical
rotation (every `logicalNext`, including block 0's, bypasses it), yet
`attemptReconcileNext` on block 1 merges it away and returns true — the code
checks no exclusion or active flag at all, contradicting the claim that an
excluded block is never silently merged away. -/
theorem c8_merge_succeeds_on_excluded_block :
    (attemptReconcileNext c8State 1 10).map Prod.fst = some true ∧
    (getBlock c8State 0).logicalNext = 0 ∧
    (getBlock c8State 1).logicalNext = 0 ∧
    (getBlock c8State 0).next = 1 ∧
    (getBlock c8State 0).parentSuperblock = (getBlock c8State 1).parentSuperblock ∧
    (getBlock c8State 0).blockStart + (getBlock c8State 0).blockLength =
      (getBlock c8State 1).blockStart := by
  refine ⟨?_, rfl, rfl, rfl, rfl, rfl⟩
  decide

/-- Claim C8, amended: `attemptReconcileNext` returns false (with the state
unchanged) exactly when the ring is a singleton, the superblocks differ, or
the blocks are not byte-adjacent — the code performs no exclusion check at
all — and `attemptReconcilePrev` never returns (its body forwards to
`next->attemptReconcilePrev()`, recursing around the circular chain without a
base case). -/
theorem c8_refusal_characterization :
    (∀ (s : CBState) (self fuel : Nat),
      attemptReconcileNext s self fuel = some (false, s) ↔
        ((getBlock s self).prev = self ∨
         (getBlock s (getBlock s self).prev).parentSuperblock ≠
           (getBlock s self).parentSuperblock ∨
         (getBlock s (getBlock s self).prev).blockStart +
           (getBlock s (getBlock s self).prev).blockLength ≠
           (getBlock s self).blockStart)) ∧
    (∀ (fuel : Nat) (s : CBState) (self : Nat),
      attemptReconcilePrevFuel fuel s self = none) := by
  constructor
  · intro s self fuel
    simp only [attemptReconcileNext]
    split_ifs with h1 h2 h3
    · simp [h1]
    · simp [h2]
    · simp [h3]
    · refine iff_of_false ?_ (by tauto)
      exact reconcileMergeBody_ne_false s self fuel s
  · intro fuel
    induction fuel with
    | zero => intro s self; rfl
    | succ n ih => intro s self; exact ih s _

set_option maxHeartbeats 800000 in
set_option maxHeartbeats 1000000 in
/-- Claim C9: after copy-constructing a cursor (id 2) from the head cursor of
a fresh buffer, the head (id 0) and tail (id 1) cursors still record block 0
in their `block` field but appear in no block's cursor list (block 0 is the
only block, and its list degenerates to the new cursor pointing at itself):
the copy constructor's body re-links the already-linked new cursor, making it
its own successor and detaching the previous list members. -/
theorem c9_copy_ctor_detaches_cursor_list :
    (getCursor c9PostState 0).block = some 0 ∧
    (getCursor c9PostState 1).block = some 0 ∧
    0 ∉ cursorChain c9PostState 10 0 ∧
    1 ∉ cursorChain c9PostState 10 0 ∧
    blockIds c9PostState = [0] := by
  simp [c9PostState, mkFresh, bcptrNew, bcptrCopy, cursorChain, cursorChainFrom,
    blockIds, getCursor, setCursor, getBlock, setBlock, lookupA, updateA, BCPtr.blank]

/-- Claim C1, amended (capacity strictly greater than the total write
length): for every sequence of writes totalling n elements into a fresh
buffer of capacity greater than n, followed by reads totalling n elements,
the elements delivered by the reads are exactly the elements written, in
order.  (At n equal to the capacity the property fails; see the
counterexample theorem.) -/
theorem c1_roundTrip_below_capacity (cap : Nat) (ws : List (List Nat)) (rs : List Nat)
    (hcap : (ws.map List.length).sum < cap)
    (hrs : rs.sum = (ws.map List.length).sum) :
    roundTrip cap ws rs = some ws.flatten := by
  have hc0 : 0 < cap := by omega
  have hmm : memMatches [] [] := fun i hi => absurd hi (by simp)
  obtain ⟨lay', m', hW, hm'⟩ := applyWrites_mid ws false cap [] [] (by simpa using hcap) hmm
  simp only [List.length_nil, Nat.zero_add] at hW
  simp only [List.nil_append] at hm'
  have hlen : ws.flatten.length = (ws.map List.length).sum := by simp
  obtain ⟨lay2, hR⟩ := applyReads_mid rs lay' cap m' ws.flatten 0 (by omega) hm'
  rw [hlen] at hR
  simp only [Nat.zero_add] at hR
  have houts : (List.range rs.sum).map (fun j => ws.flatten.getD j 0) = ws.flatten := by
    rw [hrs, ← hlen]
    exact range_map_getD_self ws.flatten
  simp only [roundTrip, mkFresh_eq cap hc0]
  rw [show midA cap [] 0 0 = midL false cap [] 0 0 from rfl]
  simp only [hW, hR, houts]

/-- Witness for the amended claim C1 at capacity 2, one write of one
element, one read of one element. -/
theorem c1_roundTrip_below_capacity_witness : roundTrip 2 [[7]] [1] = some [7] :=
  c1_roundTrip_below_capacity 2 [[7]] [1] (by decide) (by decide)

lemma lookupA_cons {α : Type} (k1 : Nat) (v1 : α) (r : List (Nat × α)) (k : Nat) :
    lookupA ((k1, v1) :: r) k = if k1 = k then some v1 else lookupA r k := rfl

lemma updateA_cons {α : Type} (k1 : Nat) (v1 : α) (r : List (Nat × α)) (k : Nat) (v : α) :
    updateA ((k1, v1) :: r) k v = (if k1 = k then (k, v) else (k1, v1)) :: updateA r k v := rfl

lemma lookupA_updateA_self {α : Type} (l : List (Nat × α)) (k : Nat) (v : α)
    (h : (lookupA l k).isSome) : lookupA (updateA l k v) k = some v := by
  induction l with
  | nil => simp [lookupA] at h
  | cons p r ih =>
    obtain ⟨k1, v1⟩ := p
    rw [updateA_cons]
    by_cases hk : k1 = k
    · rw [if_pos hk, lookupA_cons, if_pos rfl]
    · rw [if_neg hk, lookupA_cons, if_neg hk]
      rw [lookupA_cons, if_neg hk] at h
      exact ih h

lemma lookupA_updateA_other {α : Type} (l : List (Nat × α)) (k : Nat) (v : α) (k' : Nat)
    (h : k' ≠ k) : lookupA (updateA l k v) k' = lookupA l k' := by
  induction l with
  | nil => rfl
  | cons p r ih =>
    obtain ⟨k1, v1⟩ := p
    rw [updateA_cons]
    by_cases hk : k1 = k
    · rw [if_pos hk, lookupA_cons, if_neg (by omega), lookupA_cons,
        if_neg (by omega), ih]
    · rw [if_neg hk, lookupA_cons, lookupA_cons]
      by_cases hk2 : k1 = k'
      · rw [if_pos hk2, if_pos hk2]
      · rw [if_neg hk2, if_neg hk2, ih]

lemma lookupA_updateA_none {α : Type} (l : List (Nat × α)) (k : Nat) (v : α)
    (h : lookupA l k = none) : lookupA (updateA l k v) k = none := by
  induction l with
  | nil => rfl
  | cons p r ih =>
    obtain ⟨k1, v1⟩ := p
    rw [lookupA_cons] at h
    by_cases hk : k1 = k
    · rw [if_pos hk] at h
      exact absurd h (by simp)
    · rw [if_neg hk] at h
      rw [updateA_cons, if_neg hk, lookupA_cons, if_neg hk]
      exact ih h

lemma lookupA_updateA_isSome {α : Type} (l : List (Nat × α)) (k : Nat) (v : α) (k' : Nat) :
    (lookupA (updateA l k v) k').isSome = (lookupA l k').isSome := by
  by_cases h : k' = k
  · subst h
    by_cases h2 : (lookupA l k').isSome
    · rw [lookupA_updateA_self l k' v h2, h2]
      rfl
    · have h3 : lookupA l k' = none := Option.not_isSome_iff_eq_none.mp (by simpa using h2)
      rw [h3, lookupA_updateA_none l k' v h3]
  · rw [lookupA_updateA_other l k v k' h]

lemma removeA_map_fst {α : Type} (l : List (Nat × α)) (k : Nat) :
    k ∉ (removeA l k).map Prod.fst := by
  intro hmem
  rw [List.mem_map] at hmem
  obtain ⟨p, hp, hfst⟩ := hmem
  rw [removeA, List.mem_filter] at hp
  rw [hfst] at hp
  simp at hp

lemma getCursor_setBlock (s : CBState) (b : Nat) (blk : Block) (c : Nat) :
    getCursor (setBlock s b blk) c = getCursor s c := rfl

lemma getBlock_setCursor (s : CBState) (c : Nat) (v : BCPtr) (b : Nat) :
    getBlock (setCursor s c v) b = getBlock s b := rfl

lemma getBlock_setBlock_self (s : CBState) (b : Nat) (blk : Block)
    (h : (lookupA s.blocks b).isSome) : getBlock (setBlock s b blk) b = blk := by
  simp [getBlock, setBlock, lookupA_updateA_self s.blocks b blk h]

lemma getBlock_setBlock_other (s : CBState) (b : Nat) (blk : Block) (b' : Nat) (h : b' ≠ b) :
    getBlock (setBlock s b blk) b' = getBlock s b' := by
  simp [getBlock, setBlock, lookupA_updateA_other s.blocks b blk b' h]

lemma getCursor_setCursor_self (s : CBState) (c : Nat) (v : BCPtr)
    (h : (lookupA s.cursors c).isSome) : getCursor (setCursor s c v) c = v := by
  simp [getCursor, setCursor, lookupA_updateA_self s.cursors c v h]

lemma getCursor_setCursor_other (s : CBState) (c : Nat) (v : BCPtr) (c' : Nat) (h : c' ≠ c) :
    getCursor (setCursor s c v) c' = getCursor s c' := by
  simp [getCursor, setCursor, lookupA_updateA_other s.cursors c v c' h]

lemma cursors_setBlock (s : CBState) (b : Nat) (blk : Block) :
    (setBlock s b blk).cursors = s.cursors := rfl

lemma cursors_setCursor (s : CBState) (c : Nat) (v : BCPtr) :
    (setCursor s c v).cursors = updateA s.cursors c v := rfl

lemma blocks_setCursor (s : CBState) (c : Nat) (v : BCPtr) :
    (setCursor s c v).blocks = s.blocks := rfl

lemma isSome_cursors_setCursor (s : CBState) (c : Nat) (v : BCPtr) (c' : Nat) :
    (lookupA (setCursor s c v).cursors c').isSome = (lookupA s.cursors c').isSome :=
  lookupA_updateA_isSome s.cursors c v c'

lemma isSome_blocks_setBlock (s : CBState) (b : Nat) (blk : Block) (b' : Nat) :
    (lookupA (setBlock s b blk).blocks b').isSome = (lookupA s.blocks b').isSome :=
  lookupA_updateA_isSome s.blocks b blk b'

lemma keys_setBlock (s : CBState) (b : Nat) (blk : Block) :
    (setBlock s b blk).blocks.map Prod.fst = s.blocks.map Prod.fst := by
  simp only [setBlock, updateA, List.map_map]
  apply List.map_congr_left
  intro p _
  by_cases h : p.1 = b
  · simp [Function.comp_apply, if_pos h, h]
  · simp [Function.comp_apply, if_neg h]

lemma listWFfrom_congr (l : List Nat) : ∀ (s s2 : CBState) (b : Nat) (pv o : Option Nat),
    (∀ x ∈ l, lookupA s2.cursors x = lookupA s.cursors x) →
    listWFfrom s2 b pv o l = listWFfrom s b pv o l := by
  induction l with
  | nil =>
    intro s s2 b pv o h
    cases o <;> rfl
  | cons c' rest ih =>
    intro s s2 b pv o h
    cases o with
    | none => rfl
    | some c =>
      simp only [listWFfrom]
      by_cases hc : c = c'
      · subst hc
        have hl : lookupA s2.cursors c = lookupA s.cursors c := h c (by simp)
        have hgc : getCursor s2 c = getCursor s c := by simp [getCursor, hl]
        rw [hl, hgc, ih s s2 b (some c) ((getCursor s c).next)
          (fun x hx => h x (by simp [hx]))]
      · simp [hc]

lemma blockDtorCursorLoop_spec :
    ∀ (cs : List Nat) (fuel : Nat) (s : CBState) (b : Nat),
      (lookupA s.blocks b).isSome = true →
      blockListWF s b cs = true →
      cs.Nodup →
      cs.length < fuel →
      ∃ s', blockDtorCursorLoop fuel s b = some s' ∧
        (∀ c ∈ cs, getCursor s' c = BCPtr.blank) ∧
        (getBlock s' b).referencingPtrs = none ∧
        (∀ b', b' ≠ b → getBlock s' b' = getBlock s b') ∧
        (∀ c', c' ∉ cs → getCursor s' c' = getCursor s c') ∧
        s'.blocks.map Prod.fst = s.blocks.map Prod.fst := by
  intro cs
  induction cs with
  | nil =>
    intro fuel s b hb hwf hnd hf
    obtain ⟨f, rfl⟩ : ∃ f, fuel = f + 1 := ⟨fuel - 1, by omega⟩
    have hrp : (getBlock s b).referencingPtrs = none := by
      unfold blockListWF at hwf
      rcases hrp : (getBlock s b).referencingPtrs with _ | c
      · rfl
      · rw [hrp] at hwf
        exact absurd hwf (by simp [listWFfrom])
    refine ⟨s, ?_, by simp, hrp, fun b' _ => rfl, fun c' _ => rfl, rfl⟩
    simp only [blockDtorCursorLoop, hrp]
  | cons c rest ih =>
    intro fuel s b hb hwf hnd hf
    obtain ⟨f, rfl⟩ : ∃ f, fuel = f + 1 := ⟨fuel - 1, by omega⟩
    unfold blockListWF at hwf
    rcases hrp : (getBlock s b).referencingPtrs with _ | c0
    · rw [hrp] at hwf
      exact absurd hwf (by simp [listWFfrom])
    rw [hrp] at hwf
    simp only [listWFfrom, Bool.and_eq_true, decide_eq_true_eq] at hwf
    obtain ⟨⟨⟨⟨hc0, hpres⟩, hblk⟩, hprev⟩, hrest⟩ := hwf
    replace hc0 := hc0.symm
    subst hc0
    rw [List.nodup_cons] at hnd
    obtain ⟨hcnr, hndr⟩ := hnd
    -- the single iteration: s2 is the state after popping c
    rcases hnext : (getCursor s c).next with _ | n
    · -- next = none: rest must be []
      rw [hnext] at hrest
      rcases rest with _ | ⟨n', rest2⟩
      case cons => exact absurd hrest (by simp [listWFfrom])
      -- compute the iteration
      have hmove : cursorMove s c none none =
          setCursor (setBlock s b { getBlock s b with referencingPtrs := none }) c
            BCPtr.blank := by
        simp only [cursorMove, hblk, hprev, hnext]
      have hstep : blockDtorCursorLoop (f + 1) s b =
          blockDtorCursorLoop f
            (setBlock (setCursor (setBlock s b { getBlock s b with referencingPtrs := none })
              c BCPtr.blank) b
              { getBlock (setCursor (setBlock s b { getBlock s b with referencingPtrs := none })
                  c BCPtr.blank) b with referencingPtrs := none }) b := by
        simp only [blockDtorCursorLoop, hrp, hnext, hmove]
      set sA := setBlock s b { getBlock s b with referencingPtrs := none } with hsA
      set sB := setCursor sA c BCPtr.blank with hsB
      set s2 := setBlock sB b { getBlock sB b with referencingPtrs := none } with hs2
      have hbB : (lookupA sB.blocks b).isSome = true := by
        rw [hsB, blocks_setCursor, hsA, isSome_blocks_setBlock]
        exact hb
      have hb2 : (lookupA s2.blocks b).isSome = true := by
        rw [hs2, isSome_blocks_setBlock]
        exact hbB
      have hwf2 : blockListWF s2 b [] = true := by
        unfold blockListWF
        rw [hs2, getBlock_setBlock_self sB b _ hbB]
        rfl
      obtain ⟨s', hloop, hblank, hrp', hobl, hocur, hkeys⟩ :=
        ih f s2 b hb2 hwf2 (by simp) (by simp at hf ⊢; omega)
      refine ⟨s', by rw [hstep]; exact hloop, ?_, hrp', ?_, ?_, ?_⟩
      · intro x hx
        simp only [List.mem_singleton] at hx
        subst hx
        rw [hocur x (by simp)]
        rw [hs2, getCursor_setBlock, hsB]
        exact getCursor_setCursor_self sA x BCPtr.blank
          (by rw [hsA]; exact hpres)
      · intro b' hb'
        rw [hobl b' hb', hs2, getBlock_setBlock_other _ _ _ _ hb', hsB, getBlock_setCursor,
          hsA, getBlock_setBlock_other _ _ _ _ hb']
      · intro c' hc'
        simp only [List.mem_singleton] at hc'
        rw [hocur c' (by simp [hc'])]
        rw [hs2, getCursor_setBlock, hsB, getCursor_setCursor_other sA c BCPtr.blank c' hc',
          hsA, getCursor_setBlock]
      · rw [hkeys, hs2, keys_setBlock, hsB, blocks_setCursor, hsA, keys_setBlock]
    · -- next = some n: rest = n :: rest2
      rw [hnext] at hrest
      rcases rest with _ | ⟨n', rest2⟩
      case nil => exact absurd hrest (by simp [listWFfrom])
      simp only [listWFfrom, Bool.and_eq_true, decide_eq_true_eq] at hrest
      obtain ⟨⟨⟨⟨hn', hpresn⟩, hblkn⟩, hprevn⟩, hrest2⟩ := hrest
      subst hn'
      have hcn : c ≠ n := fun hco => hcnr (hco ▸ List.mem_cons_self n rest2)
      have hmove : cursorMove s c none none =
          setCursor (setCursor (setBlock s b { getBlock s b with referencingPtrs := some n })
            n { getCursor (setBlock s b { getBlock s b with referencingPtrs := some n }) n with
                prev := none }) c BCPtr.blank := by
        simp only [cursorMove, hblk, hprev, hnext]
      have hstep : blockDtorCursorLoop (f + 1) s b = blockDtorCursorLoop f
          (setBlock (cursorMove s c none none) b
            { getBlock (cursorMove s c none none) b with referencingPtrs := some n }) b := by
        simp only [blockDtorCursorLoop, hrp, hnext]
      rw [hmove] at hstep
      set sA := setBlock s b { getBlock s b with referencingPtrs := some n } with hsA
      set sB := setCursor sA n { getCursor sA n with prev := none } with hsB
      set sC := setCursor sB c BCPtr.blank with hsC
      set s2 := setBlock sC b { getBlock sC b with referencingPtrs := some n } with hs2
      have hpresnA : (lookupA sA.cursors n).isSome = true := by
        rw [hsA, cursors_setBlock]
        exact hpresn
      have hpresB : (lookupA sB.cursors c).isSome = true := by
        rw [hsB, isSome_cursors_setCursor, hsA, cursors_setBlock]
        exact hpres
      have hbC : (lookupA sC.blocks b).isSome = true := by
        rw [hsC, blocks_setCursor, hsB, blocks_setCursor, hsA, isSome_blocks_setBlock]
        exact hb
      have hb2 : (lookupA s2.blocks b).isSome = true := by
        rw [hs2, isSome_blocks_setBlock]
        exact hbC
      have hgcn : getCursor sA n = getCursor s n := by
        rw [hsA, getCursor_setBlock]
      have hgn2 : getCursor s2 n = { getCursor s n with prev := none } := by
        rw [hs2, getCursor_setBlock, hsC, getCursor_setCursor_other sB c BCPtr.blank n
          (fun hco => hcn hco.symm), hsB, getCursor_setCursor_self sA n _ hpresnA, hgcn]
      have hcursors2 : ∀ x, x ≠ c → x ≠ n → lookupA s2.cursors x = lookupA s.cursors x := by
        intro x hxc hxn
        rw [hs2, cursors_setBlock, hsC, cursors_setCursor,
          lookupA_updateA_other _ _ _ _ hxc, hsB, cursors_setCursor,
          lookupA_updateA_other _ _ _ _ hxn, hsA, cursors_setBlock]
      have hgb2 : getBlock s2 b = { getBlock sC b with referencingPtrs := some n } := by
        rw [hs2]
        exact getBlock_setBlock_self sC b _ hbC
      have hrp2 : (getBlock s2 b).referencingPtrs = some n := by rw [hgb2]
      have hwf2 : blockListWF s2 b (n :: rest2) = true := by
        unfold blockListWF
        rw [hrp2]
        simp only [listWFfrom, Bool.and_eq_true, decide_eq_true_eq]
        refine ⟨⟨⟨⟨by trivial, ?_⟩, ?_⟩, ?_⟩, ?_⟩
        · rw [hs2, cursors_setBlock, hsC, isSome_cursors_setCursor, hsB,
            isSome_cursors_setCursor, hsA, cursors_setBlock]
          exact hpresn
        · rw [hgn2]
          exact hblkn
        · rw [hgn2]
        · rw [hgn2]
          rw [show ({ getCursor s n with prev := none } : BCPtr).next =
            (getCursor s n).next from rfl]
          rw [listWFfrom_congr rest2 s s2 b (some n) ((getCursor s n).next)]
          · exact hrest2
          · intro x hx
            have hxc : x ≠ c := fun hco => hcnr (hco ▸ List.mem_cons_of_mem n hx)
            have hxn : x ≠ n := fun hco => (List.nodup_cons.mp hndr).1 (hco ▸ hx)
            exact hcursors2 x hxc hxn
      obtain ⟨s', hloop, hblank, hrp', hobl, hocur, hkeys⟩ :=
        ih f s2 b hb2 hwf2 hndr (by simp at hf ⊢; omega)
      refine ⟨s', by rw [hstep]; exact hloop, ?_, hrp', ?_, ?_, ?_⟩
      · intro x hx
        rcases List.mem_cons.mp hx with hx | hx
        · subst hx
          rw [hocur x hcnr]
          rw [hs2, getCursor_setBlock, hsC]
          exact getCursor_setCursor_self sB x BCPtr.blank hpresB
        · exact hblank x hx
      · intro b' hb'
        rw [hobl b' hb', hs2, getBlock_setBlock_other _ _ _ _ hb', hsC, getBlock_setCursor,
          hsB, getBlock_setCursor, hsA, getBlock_setBlock_other _ _ _ _ hb']
      · intro c' hc'
        have hc'c : c' ≠ c := by
          intro hco
          subst hco
          exact hc' (by simp)
        have hc'n : c' ≠ n := by
          intro hco
          subst hco
          exact hc' (by simp)
        rw [hocur c' (fun hco => hc' (List.mem_cons_of_mem c hco))]
        rw [show getCursor s2 c' = getCursor s c' from by
          simp [getCursor, hcursors2 c' hc'c hc'n]]
      · rw [hkeys, hs2, keys_setBlock, hsC, blocks_setCursor, hsB, blocks_setCursor, hsA,
          keys_setBlock]

lemma lookupA_removeA_other {α : Type} (l : List (Nat × α)) (k k' : Nat) (h : k' ≠ k) :
    lookupA (removeA l k) k' = lookupA l k' := by
  induction l with
  | nil => rfl
  | cons p r ih =>
    obtain ⟨k1, v1⟩ := p
    by_cases hk : k1 = k
    · subst hk
      rw [show removeA ((k1, v1) :: r) k1 = removeA r k1 from by simp [removeA], ih,
        lookupA_cons, if_neg (by omega)]
    · rw [show removeA ((k1, v1) :: r) k = (k1, v1) :: removeA r k from by
        simp [removeA, hk], lookupA_cons, lookupA_cons, ih]

/-- Claim C10: destroying a block (its destructor, header lines 399–413)
blanks every cursor registered on it — each cursor in its `referencingPtrs`
list ends with null `block`, `ptr`, `next` and `prev` fields — removes the
block, and splices the physical chain: the former `prev` block's `next`
becomes the former `next` block, and that block's `prev` becomes the former
`prev` block. -/
theorem c10_destroy_blanks_cursors_and_unlinks (s : CBState) (b : Nat) (cs : List Nat)
    (fuel : Nat)
    (hb : (lookupA s.blocks b).isSome = true)
    (hwf : blockListWF s b cs = true)
    (hnd : cs.Nodup)
    (hfuel : cs.length < fuel)
    (hpp : (lookupA s.blocks (getBlock s b).prev).isSome = true)
    (hnp : (lookupA s.blocks (getBlock s b).next).isSome = true)
    (hpb : (getBlock s b).prev ≠ b)
    (hnb : (getBlock s b).next ≠ b) :
    (destroyBlock s b fuel).isSome = true ∧
    (∀ c ∈ cs, getCursor ((destroyBlock s b fuel).getD default) c = BCPtr.blank) ∧
    b ∉ blockIds ((destroyBlock s b fuel).getD default) ∧
    (getBlock ((destroyBlock s b fuel).getD default) (getBlock s b).prev).next =
      (getBlock s b).next ∧
    (getBlock ((destroyBlock s b fuel).getD default) (getBlock s b).next).prev =
      (getBlock s b).prev := by
  set p := (getBlock s b).prev with hp
  set nx := (getBlock s b).next with hnx
  set sR1 := setBlock s p { getBlock s p with next := nx } with hsR1
  set sR := setBlock sR1 nx { getBlock sR1 nx with prev := p } with hsR
  have hde : blockDtorEffects s b fuel = blockDtorCursorLoop fuel sR b := by
    rw [blockDtorEffects]
  have hbR : (lookupA sR.blocks b).isSome = true := by
    rw [hsR, isSome_blocks_setBlock, hsR1, isSome_blocks_setBlock]
    exact hb
  have hgbR : getBlock sR b = getBlock s b := by
    rw [hsR, getBlock_setBlock_other _ _ _ _ (Ne.symm hnb), hsR1,
      getBlock_setBlock_other _ _ _ _ (Ne.symm hpb)]
  have hwfR : blockListWF sR b cs = true := by
    unfold blockListWF at hwf ⊢
    rw [hgbR]
    rw [listWFfrom_congr cs s sR b none ((getBlock s b).referencingPtrs)
      (fun x _ => by rw [hsR, cursors_setBlock, hsR1, cursors_setBlock])]
    exact hwf
  obtain ⟨s', hloop, hblank, hrp', hobl, hocur, hkeys⟩ :=
    blockDtorCursorLoop_spec cs fuel sR b hbR hwfR hnd hfuel
  have hdb : destroyBlock s b fuel = some { s' with blocks := removeA s'.blocks b } := by
    rw [destroyBlock, hde, hloop]
    rfl
  -- block p in sR
  have hpR1 : (lookupA sR1.blocks p).isSome = true := by
    rw [hsR1, isSome_blocks_setBlock]
    exact hpp
  have hnR1 : (lookupA sR1.blocks nx).isSome = true := by
    rw [hsR1, isSome_blocks_setBlock]
    exact hnp
  have hgp : (getBlock sR p).next = nx ∧ (getBlock sR nx).prev = p := by
    by_cases hpn : p = nx
    · have hq : getBlock sR1 nx = { getBlock s p with next := nx } := by
        rw [hsR1, ← hpn]
        exact getBlock_setBlock_self s p _ hpp
      have h2 : getBlock sR nx = { getBlock sR1 nx with prev := p } := by
        rw [hsR]
        exact getBlock_setBlock_self sR1 nx _ hnR1
      constructor
      · rw [hpn, h2, hq]
      · rw [hpn, h2]
        exact hpn
    · have h1 : getBlock sR1 p = { getBlock s p with next := nx } := by
        rw [hsR1]
        exact getBlock_setBlock_self s p _ hpp
      have h2 : getBlock sR p = getBlock sR1 p := by
        rw [hsR]
        exact getBlock_setBlock_other _ _ _ _ (fun hco => hpn hco)
      have h3 : getBlock sR nx = { getBlock sR1 nx with prev := p } := by
        rw [hsR]
        exact getBlock_setBlock_self sR1 nx _ hnR1
      rw [h2, h1, h3]
      exact ⟨rfl, rfl⟩
  rw [hdb]
  refine ⟨rfl, ?_, ?_, ?_, ?_⟩
  · intro c hc
    show getCursor s' c = BCPtr.blank
    exact hblank c hc
  · exact removeA_map_fst s'.blocks b
  · show (getBlock { s' with blocks := removeA s'.blocks b } p).next = nx
    rw [show getBlock { s' with blocks := removeA s'.blocks b } p = getBlock s' p from by
      simp [getBlock, lookupA_removeA_other s'.blocks b p hpb]]
    rw [hobl p hpb]
    exact hgp.1
  · show (getBlock { s' with blocks := removeA s'.blocks b } nx).prev = p
    rw [show getBlock { s' with blocks := removeA s'.blocks b } nx = getBlock s' nx from by
      simp [getBlock, lookupA_removeA_other s'.blocks b nx hnb]]
    rw [hobl nx hnb]
    exact hgp.2

theorem c10_destroy_blanks_cursors_and_unlinks_witness :
    blockListWF c10State 1 [2] = true ∧
    ((destroyBlock c10State 1 2).isSome = true ∧
     (∀ c ∈ [2], getCursor ((destroyBlock c10State 1 2).getD default) c = BCPtr.blank) ∧
     1 ∉ blockIds ((destroyBlock c10State 1 2).getD default) ∧
     (getBlock ((destroyBlock c10State 1 2).getD default) (getBlock c10State 1).prev).next =
       (getBlock c10State 1).next ∧
     (getBlock ((destroyBlock c10State 1 2).getD default) (getBlock c10State 1).next).prev =
       (getBlock c10State 1).prev) :=
  ⟨by decide, c10_destroy_blanks_cursors_and_unlinks c10State 1 [2] 2 (by decide) (by decide)
    (by decide) (by decide) (by decide) (by decide) (by decide) (by decide)⟩

lemma attemptReconcilePrevFuel_none : ∀ (fuel : Nat) (s : CBState) (self : Nat),
    attemptReconcilePrevFuel fuel s self = none
  | 0, _, _ => rfl
  | fuel + 1, s, self => attemptReconcilePrevFuel_none fuel s (getBlock s self).next

lemma lookupA_isSome_mem {α : Type} (l : List (Nat × α)) (k : Nat)
    (h : (lookupA l k).isSome = true) : k ∈ l.map Prod.fst := by
  induction l with
  | nil => simp [lookupA] at h
  | cons p r ih =>
    obtain ⟨k1, v1⟩ := p
    rw [lookupA_cons] at h
    by_cases hk : k1 = k
    · simp [hk]
    · rw [if_neg hk] at h
      simp [ih h]

lemma removeA_map_fst_eq {α : Type} (l : List (Nat × α)) (k : Nat) :
    (removeA l k).map Prod.fst = (l.map Prod.fst).filter (fun x => x ≠ k) := by
  induction l with
  | nil => rfl
  | cons p r ih =>
    obtain ⟨k1, v1⟩ := p
    by_cases hk : k1 = k
    · subst hk
      simp [removeA, List.filter] at ih ⊢
      exact ih
    · simp [removeA, List.filter, hk] at ih ⊢
      exact ih

lemma blockIds_setBlock (s : CBState) (b : Nat) (blk : Block) :
    blockIds (setBlock s b blk) = blockIds s := keys_setBlock s b blk

lemma blockIds_setCursor (s : CBState) (c : Nat) (v : BCPtr) :
    blockIds (setCursor s c v) = blockIds s := rfl

lemma blockIds_memUpd (s : CBState) (m : List (Nat × Nat)) :
    blockIds { s with mem := m } = blockIds s := rfl

lemma blockIds_cursUpd (s : CBState) (l : List (Nat × BCPtr)) :
    blockIds { s with cursors := l } = blockIds s := rfl

lemma blockIds_advanceTail (s : CBState) :
    blockIds (advanceTailToNextBlock s) = blockIds s := by
  simp only [advanceTailToNextBlock]
  exact blockIds_setBlock _ _ _

lemma blockIds_cursorMove (s : CBState) (c : Nat) (nb np : Option Nat) :
    blockIds (cursorMove s c nb np) = blockIds s := by
  simp only [cursorMove]
  repeat' split
  all_goals
    simp only [blockIds_setBlock, blockIds_setCursor]

lemma blockIds_whileTailLoop : ∀ (fuel : Nat) (s : CBState) (nb : Nat) (t : CBState),
    whileTailLoop fuel s nb = some t → blockIds t = blockIds s := by
  intro fuel
  induction fuel with
  | zero =>
    intro s nb t h
    rw [whileTailLoop] at h
    split at h
    · simp at h
    · injection h with h
      rw [h]
  | succ f ih =>
    intro s nb t h
    rw [whileTailLoop] at h
    split at h
    · exact (ih _ _ _ h).trans (blockIds_advanceTail s)
    · injection h with h
      rw [h]

lemma blockIds_advanceHead (s : CBState) (fuel : Nat) (t : CBState)
    (h : advanceHeadToNextBlock s fuel = some t) : blockIds t = blockIds s := by
  simp only [advanceHeadToNextBlock] at h
  split at h
  · injection h with h
    rw [← h, blockIds_cursorMove, blockIds_setBlock]
  · split at h
    · simp at h
    · rename_i s2 heq
      injection h with h
      rw [← h, blockIds_cursorMove, blockIds_setBlock,
        blockIds_whileTailLoop _ _ _ _ heq, blockIds_setBlock]

lemma blockIds_writeLoop : ∀ (fuel : Nat) (s : CBState) (input : List Nat)
    (count numRead : Nat) (t : CBState),
    writeLoop fuel s input count numRead = some t → blockIds t = blockIds s := by
  intro fuel
  induction fuel with
  | zero => intro s input count numRead t h; simp [writeLoop] at h
  | succ f ih =>
    intro s input count numRead t h
    simp only [writeLoop] at h
    split at h
    · split at h
      all_goals
        (split at h
         · injection h with h
           rw [← h, blockIds_cursorMove, blockIds_memUpd]
           all_goals exact blockIds_advanceTail s
         · split at h
           · simp at h
           · rename_i s2 heq
             rw [ih _ _ _ _ _ h, blockIds_advanceHead _ _ _ heq, blockIds_memUpd]
             all_goals exact blockIds_advanceTail s)
    · injection h with h
      rw [h]

lemma blockIds_readLoop : ∀ (fuel : Nat) (s : CBState)
    (buffer : Option (List (Nat × Nat))) (count numRead : Nat) (k : Nat) (t : CBState)
    (out : List (Nat × Nat)),
    readLoop fuel s buffer count numRead = RRes.ok k t out → blockIds t = blockIds s := by
  intro fuel
  induction fuel with
  | zero => intro s buffer count numRead k t out h; simp [readLoop] at h
  | succ f ih =>
    intro s buffer count numRead k t out h
    simp only [readLoop] at h
    split at h
    · split at h
      · split at h
        all_goals
          (split at h
           · simp at h
           · injection h with h1 h2 h3
             rw [← h2, blockIds_cursorMove])
      · split at h
        · split at h
          · simp at h
          · injection h with h1 h2 h3
            rw [← h2, blockIds_cursorMove]
        · split at h
          · simp at h
          · exact (ih _ _ _ _ _ _ _ h).trans (blockIds_advanceTail s)
    · injection h with h1 h2 h3
      rw [h2]

lemma blockIds_bcptrNew (s : CBState) (nid b p : Nat) (t : CBState)
    (h : bcptrNew s nid b p = some t) : blockIds t = blockIds s := by
  simp only [bcptrNew] at h
  split at h
  · simp at h
  · split at h
    all_goals
      (injection h with h
       rw [← h]
       simp only [blockIds_setBlock, blockIds_setCursor, blockIds_cursUpd])

lemma blockIds_bcptrCopy (s : CBState) (nid src : Nat) (t : CBState)
    (h : bcptrCopy s nid src = some t) : blockIds t = blockIds s := by
  simp only [bcptrCopy] at h
  split at h
  · split at h
    · simp at h
    · rename_i s2 heq
      have h2 := blockIds_bcptrNew _ _ _ _ _ heq
      split at h
      · simp at h
      · injection h with h
        rw [← h]
        simp only [blockIds_setCursor]
        split
        all_goals simp only [blockIds_setCursor]
        all_goals exact h2
  · simp at h
lemma readAddrs_merge (s s2 : CBState) (self p : Nat)
    (hps : p ≠ self)
    (hpmem : p ∈ blockIds s) (hsmem : self ∈ blockIds s)
    (hpn : (getBlock s p).next = self)
    (hadj : (getBlock s p).blockStart + (getBlock s p).blockLength =
      (getBlock s self).blockStart)
    (hsn : (getBlock s self).next ≠ self)
    (hlen : ∀ b' ∈ blockIds s, 0 < (getBlock s b').blockLength)
    (hclosed : ∀ b' ∈ blockIds s, (getBlock s b').next ∈ blockIds s)
    (huniq : ∀ b' ∈ blockIds s, (getBlock s b').next = self → b' = p)
    (h1s : (getBlock s2 p).blockStart = (getBlock s p).blockStart)
    (h1l : (getBlock s2 p).blockLength =
      (getBlock s p).blockLength + (getBlock s self).blockLength)
    (h1n : (getBlock s2 p).next = (getBlock s self).next)
    (h2 : ∀ b', b' ≠ p → b' ≠ self →
      (getBlock s2 b').blockStart = (getBlock s b').blockStart ∧
      (getBlock s2 b').blockLength = (getBlock s b').blockLength ∧
      (getBlock s2 b').next = (getBlock s b').next) :
    ∀ (n : Nat) (b pos : Nat), b ∈ blockIds s →
      pos < (getBlock s b).blockStart + (getBlock s b).blockLength →
      readAddrs s2 n (if b = self then p else b) pos = readAddrs s n b pos := by
  intro n
  induction n with
  | zero => intro b pos _ _; rfl
  | succ m ih =>
    intro b pos hbmem hpos
    by_cases hbs : b = self
    · subst hbs
      rw [if_pos rfl]
      by_cases hc : pos + 1 < (getBlock s b).blockStart + (getBlock s b).blockLength
      · have e : nextAddr s b pos = (b, pos + 1) := by
          simp only [nextAddr]
          rw [if_pos hc]
        have hc2 : pos + 1 < (getBlock s2 p).blockStart + (getBlock s2 p).blockLength := by
          rw [h1s, h1l]
          omega
        have e2 : nextAddr s2 p pos = (p, pos + 1) := by
          simp only [nextAddr]
          rw [if_pos hc2]
        simp only [readAddrs, e, e2]
        have := ih b (pos + 1) hbmem hc
        rw [if_pos rfl] at this
        exact congrArg (List.cons pos) this
      · have e : nextAddr s b pos =
            ((getBlock s b).next, (getBlock s (getBlock s b).next).blockStart) := by
          simp only [nextAddr]
          rw [if_neg hc]
        have hc2 : ¬ (pos + 1 < (getBlock s2 p).blockStart + (getBlock s2 p).blockLength) := by
          rw [h1s, h1l]
          omega
        have hst : (getBlock s2 (getBlock s b).next).blockStart =
            (getBlock s (getBlock s b).next).blockStart := by
          by_cases hq : (getBlock s b).next = p
          · rw [hq, h1s]
          · exact ((h2 (getBlock s b).next hq hsn).1)
        have e2 : nextAddr s2 p pos =
            ((getBlock s b).next, (getBlock s (getBlock s b).next).blockStart) := by
          simp only [nextAddr]
          rw [if_neg hc2, h1n, hst]
        simp only [readAddrs, e, e2]
        have hmem2 : (getBlock s b).next ∈ blockIds s := hclosed b hbmem
        have := ih (getBlock s b).next (getBlock s (getBlock s b).next).blockStart hmem2
          (by have := hlen (getBlock s b).next hmem2; omega)
        rw [if_neg hsn] at this
        exact congrArg (List.cons pos) this
    · by_cases hbp : b = p
      · subst hbp
        rw [if_neg hbs]
        by_cases hc : pos + 1 < (getBlock s b).blockStart + (getBlock s b).blockLength
        · have e : nextAddr s b pos = (b, pos + 1) := by
            simp only [nextAddr]
            rw [if_pos hc]
          have hc2 : pos + 1 < (getBlock s2 b).blockStart + (getBlock s2 b).blockLength := by
            rw [h1s, h1l]
            omega
          have e2 : nextAddr s2 b pos = (b, pos + 1) := by
            simp only [nextAddr]
            rw [if_pos hc2]
          simp only [readAddrs, e, e2]
          have := ih b (pos + 1) hpmem hc
          rw [if_neg hbs] at this
          exact congrArg (List.cons pos) this
        · have e : nextAddr s b pos =
              (self, (getBlock s self).blockStart) := by
            simp only [nextAddr]
            rw [if_neg hc, hpn]
          have hpos1 : pos + 1 = (getBlock s self).blockStart := by
            omega
          have hc2 : pos + 1 < (getBlock s2 b).blockStart + (getBlock s2 b).blockLength := by
            rw [h1s, h1l]
            have := hlen self hsmem
            omega
          have e2 : nextAddr s2 b pos = (b, pos + 1) := by
            simp only [nextAddr]
            rw [if_pos hc2]
          simp only [readAddrs, e, e2]
          have := ih self (getBlock s self).blockStart hsmem
            (by have := hlen self hsmem; omega)
          rw [if_pos rfl] at this
          rw [hpos1]
          exact congrArg (List.cons pos) this
      · rw [if_neg hbs]
        obtain ⟨hsame_s, hsame_l, hsame_n⟩ := h2 b hbp hbs
        by_cases hc : pos + 1 < (getBlock s b).blockStart + (getBlock s b).blockLength
        · have e : nextAddr s b pos = (b, pos + 1) := by
            simp only [nextAddr]
            rw [if_pos hc]
          have hc2 : pos + 1 < (getBlock s2 b).blockStart + (getBlock s2 b).blockLength := by
            rw [hsame_s, hsame_l]
            omega
          have e2 : nextAddr s2 b pos = (b, pos + 1) := by
            simp only [nextAddr]
            rw [if_pos hc2]
          simp only [readAddrs, e, e2]
          have := ih b (pos + 1) hbmem hc
          rw [if_neg hbs] at this
          exact congrArg (List.cons pos) this
        · have hnxts : (getBlock s b).next ≠ self := by
            intro hco
            exact hbp (huniq b hbmem hco)
          have e : nextAddr s b pos =
              ((getBlock s b).next, (getBlock s (getBlock s b).next).blockStart) := by
            simp only [nextAddr]
            rw [if_neg hc]
          have hc2 : ¬ (pos + 1 < (getBlock s2 b).blockStart + (getBlock s2 b).blockLength) := by
            rw [hsame_s, hsame_l]
            omega
          have hst : (getBlock s2 (getBlock s b).next).blockStart =
              (getBlock s (getBlock s b).next).blockStart := by
            by_cases hq : (getBlock s b).next = p
            · rw [hq, h1s]
            · exact ((h2 (getBlock s b).next hq hnxts).1)
          have e2 : nextAddr s2 b pos =
              ((getBlock s b).next, (getBlock s (getBlock s b).next).blockStart) := by
            simp only [nextAddr]
            rw [if_neg hc2, hsame_n, hst]
          simp only [readAddrs, e, e2]
          have hmem2 : (getBlock s b).next ∈ blockIds s := hclosed b hbmem
          have := ih (getBlock s b).next (getBlock s (getBlock s b).next).blockStart hmem2
            (by have := hlen (getBlock s b).next hmem2; omega)
          rw [if_neg hnxts] at this
          exact congrArg (List.cons pos) this

lemma listWFfrom_mem_block : ∀ (l : List Nat) (s : CBState) (b : Nat) (pv o : Option Nat),
    listWFfrom s b pv o l = true → ∀ c ∈ l, (getCursor s c).block = some b := by
  intro l
  induction l with
  | nil => intro s b pv o _ c hc; simp at hc
  | cons c0 rest ih =>
    intro s b pv o hwf c hc
    cases o with
    | none => simp [listWFfrom] at hwf
    | some c1 =>
      simp only [listWFfrom, Bool.and_eq_true, decide_eq_true_eq] at hwf
      obtain ⟨⟨⟨⟨hc1, _⟩, hblk⟩, _⟩, hrest⟩ := hwf
      rcases List.mem_cons.mp hc with hc | hc
      · rw [hc, ← hc1]
        exact hblk
      · exact ih s b (some c1) (getCursor s c1).next hrest c hc

lemma reconcileRelinkLoop_spec :
    ∀ (cs : List Nat) (fuel : Nat) (s : CBState) (self p : Nat) (pv pv2 : Option Nat)
      (ds : List Nat),
      self ≠ p →
      (lookupA s.blocks self).isSome = true →
      (lookupA s.blocks p).isSome = true →
      listWFfrom s self pv (getBlock s self).referencingPtrs cs = true →
      listWFfrom s p pv2 (getBlock s p).referencingPtrs ds = true →
      (cs ++ ds).Nodup →
      cs.length < fuel →
      ∃ s', reconcileRelinkLoop fuel s self p = some s' ∧
        (∃ q, listWFfrom s' p q (getBlock s' p).referencingPtrs (cs.reverse ++ ds) = true) ∧
        (getBlock s' self).referencingPtrs = none ∧
        (∀ b', b' ≠ self → b' ≠ p → getBlock s' b' = getBlock s b') ∧
        ((getBlock s' self).blockStart = (getBlock s self).blockStart ∧
         (getBlock s' self).blockLength = (getBlock s self).blockLength ∧
         (getBlock s' self).next = (getBlock s self).next ∧
         (getBlock s' self).prev = (getBlock s self).prev) ∧
        ((getBlock s' p).blockStart = (getBlock s p).blockStart ∧
         (getBlock s' p).blockLength = (getBlock s p).blockLength ∧
         (getBlock s' p).next = (getBlock s p).next ∧
         (getBlock s' p).prev = (getBlock s p).prev) ∧
        (∀ c', c' ∉ cs → c' ∉ ds → getCursor s' c' = getCursor s c') ∧
        (∀ c', (getCursor s' c').ptr = (getCursor s c').ptr) ∧
        (∀ c', (lookupA s'.cursors c').isSome = (lookupA s.cursors c').isSome) ∧
        s'.mem = s.mem ∧
        s'.blocks.map Prod.fst = s.blocks.map Prod.fst := by
  intro cs
  induction cs with
  | nil =>
    intro fuel s self p pv pv2 ds hsp hbs hbp hwfS hwfP hnd hf
    obtain ⟨f, rfl⟩ : ∃ f, fuel = f + 1 := ⟨fuel - 1, by omega⟩
    have hrp : (getBlock s self).referencingPtrs = none := by
      rcases hrp : (getBlock s self).referencingPtrs with _ | c
      · rfl
      · rw [hrp] at hwfS
        exact absurd hwfS (by simp [listWFfrom])
    refine ⟨s, ?_, ⟨pv2, by simpa using hwfP⟩, hrp, fun b' _ _ => rfl,
      ⟨rfl, rfl, rfl, rfl⟩, ⟨rfl, rfl, rfl, rfl⟩, fun c' _ _ => rfl, fun c' => rfl,
      fun c' => rfl, rfl, rfl⟩
    simp only [reconcileRelinkLoop, hrp]
  | cons c rest ih =>
    intro fuel s self p pv pv2 ds hsp hbs hbp hwfS hwfP hnd hf
    obtain ⟨f, rfl⟩ : ∃ f, fuel = f + 1 := ⟨fuel - 1, by omega⟩
    rcases hrp : (getBlock s self).referencingPtrs with _ | c0
    · rw [hrp] at hwfS
      exact absurd hwfS (by simp [listWFfrom])
    rw [hrp] at hwfS
    simp only [listWFfrom, Bool.and_eq_true, decide_eq_true_eq] at hwfS
    obtain ⟨⟨⟨⟨hc0, hpres⟩, hblk⟩, hprev⟩, hrest⟩ := hwfS
    replace hc0 := hc0.symm
    subst hc0
    rw [List.cons_append, List.nodup_cons] at hnd
    obtain ⟨hcnr, hnd'⟩ := hnd
    have hcrest : c ∉ rest := fun hx => hcnr (List.mem_append_left ds hx)
    have hcds : c ∉ ds := fun hx => hcnr (List.mem_append_right rest hx)
    rcases hdRefs : (getBlock s p).referencingPtrs with _ | d
    · -- p's list is empty: ds = []
      rw [hdRefs] at hwfP
      rcases ds with _ | ⟨d0, ds'⟩
      case cons => exact absurd hwfP (by simp [listWFfrom])
      set sA := setCursor s c { getCursor s c with block := some p } with hsA
      set sC := setBlock sA self
        { getBlock s self with referencingPtrs := (getCursor sA c).next } with hsC
      set sD := setCursor sC c { getCursor sC c with next := none } with hsD
      set s2 := setBlock sD p { getBlock sC p with referencingPtrs := some c } with hs2
      have hstep : reconcileRelinkLoop (f + 1) s self p =
          reconcileRelinkLoop f s2 self p := by
        simp only [reconcileRelinkLoop, hrp, getBlock_setCursor, hdRefs]
      -- cursor/block bookkeeping in s2
      have hpresA : (lookupA sA.cursors c).isSome = true := by
        rw [hsA, isSome_cursors_setCursor]
        exact hpres
      have hgcA : getCursor sA c = { getCursor s c with block := some p } := by
        rw [hsA]
        exact getCursor_setCursor_self s c _ hpres
      have hpresC : (lookupA sC.cursors c).isSome = true := by
        rw [hsC, cursors_setBlock]
        exact hpresA
      have hgcC : getCursor sC c = { getCursor s c with block := some p } := by
        rw [hsC, getCursor_setBlock, hgcA]
      have hgc2 : getCursor s2 c =
          { getCursor s c with block := some p, next := none } := by
        rw [hs2, getCursor_setBlock, hsD, getCursor_setCursor_self sC c _ hpresC, hgcC]
      have hcursors2 : ∀ x, x ≠ c → lookupA s2.cursors x = lookupA s.cursors x := by
        intro x hxc
        rw [hs2, cursors_setBlock, hsD, cursors_setCursor,
          lookupA_updateA_other _ _ _ _ hxc, hsC, cursors_setBlock, hsA, cursors_setCursor,
          lookupA_updateA_other _ _ _ _ hxc]
      have hbsD : (lookupA sD.blocks self).isSome = true := by
        rw [hsD, blocks_setCursor, hsC, isSome_blocks_setBlock, hsA, blocks_setCursor]
        exact hbs
      have hbpD : (lookupA sD.blocks p).isSome = true := by
        rw [hsD, blocks_setCursor, hsC, isSome_blocks_setBlock, hsA, blocks_setCursor]
        exact hbp
      have hbs2 : (lookupA s2.blocks self).isSome = true := by
        rw [hs2, isSome_blocks_setBlock]
        exact hbsD
      have hbp2 : (lookupA s2.blocks p).isSome = true := by
        rw [hs2, isSome_blocks_setBlock]
        exact hbpD
      have hgbself2 : getBlock s2 self =
          { getBlock s self with referencingPtrs := (getCursor s c).next } := by
        rw [hs2, getBlock_setBlock_other _ _ _ _ hsp, hsD, getBlock_setCursor, hsC,
          getBlock_setBlock_self sA self _ (by rw [hsA, blocks_setCursor]; exact hbs), hgcA]
      have hgbp2 : getBlock s2 p =
          { getBlock s p with referencingPtrs := some c } := by
        have hgCp : getBlock sC p = getBlock s p := by
          rw [hsC, getBlock_setBlock_other _ _ _ _ (fun h => hsp h.symm), hsA,
            getBlock_setCursor]
        rw [hs2, getBlock_setBlock_self sD p _ hbpD, hgCp]
      have hwfS2 : listWFfrom s2 self (some c) (getBlock s2 self).referencingPtrs rest
          = true := by
        rw [hgbself2,
          show ({ getBlock s self with referencingPtrs := (getCursor s c).next }
            : Block).referencingPtrs = (getCursor s c).next from rfl]
        rw [listWFfrom_congr rest s s2 self (some c) ((getCursor s c).next)
          (fun x hx => hcursors2 x (fun hco => hcrest (hco ▸ hx)))]
        exact hrest
      have hpres2 : (lookupA s2.cursors c).isSome = true := by
        rw [hs2, cursors_setBlock, hsD, isSome_cursors_setCursor, hsC, cursors_setBlock,
          hsA, isSome_cursors_setCursor]
        exact hpres
      have hwfP2 : listWFfrom s2 p pv (getBlock s2 p).referencingPtrs [c] = true := by
        rw [hgbp2]
        simp [listWFfrom, hgc2, hpres2, hprev]
      obtain ⟨s', hloop, hWF', hrefs', hobl, hfself, hfp, hocur, hptr, hsome, hmem, hkeys⟩ :=
        ih f s2 self p (some c) pv [c] hsp hbs2 hbp2 hwfS2 hwfP2
          (by
            rw [show rest ++ [c] = rest ++ c :: ([] : List Nat) from rfl]
            refine List.nodup_middle.mpr ?_
            simpa using List.nodup_cons.mpr ⟨hcrest, by simpa using hnd'⟩)
          (by simp at hf ⊢; omega)
      refine ⟨s', by rw [hstep]; exact hloop, ?_, hrefs', ?_, ?_, ?_, ?_, ?_, ?_, ?_, ?_⟩
      · obtain ⟨q, hq⟩ := hWF'
        refine ⟨q, ?_⟩
        rw [show (c :: rest).reverse ++ ([] : List Nat) = rest.reverse ++ [c] by simp]
        exact hq
      · intro b' hb1 hb2
        rw [hobl b' hb1 hb2, hs2, getBlock_setBlock_other _ _ _ _ hb2, hsD,
          getBlock_setCursor, hsC, getBlock_setBlock_other _ _ _ _ hb1, hsA,
          getBlock_setCursor]
      · refine ⟨?_, ?_, ?_, ?_⟩
        · rw [hfself.1, hgbself2]
        · rw [hfself.2.1, hgbself2]
        · rw [hfself.2.2.1, hgbself2]
        · rw [hfself.2.2.2, hgbself2]
      · refine ⟨?_, ?_, ?_, ?_⟩
        · rw [hfp.1, hgbp2]
        · rw [hfp.2.1, hgbp2]
        · rw [hfp.2.2.1, hgbp2]
        · rw [hfp.2.2.2, hgbp2]
      · intro c' hc1 hc2
        have hc'c : c' ≠ c := fun hco => hc1 (hco ▸ List.mem_cons_self c rest)
        rw [hocur c' (fun hco => hc1 (List.mem_cons_of_mem c hco))
          (by simpa using hc'c)]
        simp [getCursor, hcursors2 c' hc'c]
      · intro c'
        rw [hptr c']
        by_cases hc'c : c' = c
        · subst hc'c
          rw [hgc2]
        · simp [getCursor, hcursors2 c' hc'c]
      · intro c'
        rw [hsome c']
        by_cases hc'c : c' = c
        · subst hc'c
          rw [hs2, cursors_setBlock, hsD, isSome_cursors_setCursor, hsC, cursors_setBlock,
            hsA, isSome_cursors_setCursor]
        · rw [show lookupA s2.cursors c' = lookupA s.cursors c' from hcursors2 c' hc'c]
      · rw [hmem, hs2, hsD, hsC, hsA]
        rfl
      · rw [hkeys, hs2, keys_setBlock, hsD, blocks_setCursor, hsC, keys_setBlock, hsA,
          blocks_setCursor]
    · -- p's list is d :: ds'
      rw [hdRefs] at hwfP
      rcases ds with _ | ⟨d0, ds'⟩
      case nil => exact absurd hwfP (by simp [listWFfrom])
      simp only [listWFfrom, Bool.and_eq_true, decide_eq_true_eq] at hwfP
      obtain ⟨⟨⟨⟨hd0, hpresd⟩, hblkd⟩, hprevd⟩, hrestd⟩ := hwfP
      subst hd0
      have hcd : c ≠ d := fun hco => hcds (hco ▸ List.mem_cons_self d ds')
      have hdds' : d ∉ ds' := by
        have := (List.Nodup.of_append_right hnd' : (d :: ds').Nodup)
        exact (List.nodup_cons.mp this).1
      have hdrest : d ∉ rest := fun hx =>
        (List.disjoint_of_nodup_append hnd') hx (List.mem_cons_self d ds')
      set sA := setCursor s c { getCursor s c with block := some p } with hsA
      set sB := setCursor sA d { getCursor sA d with prev := some c } with hsB
      set sC := setBlock sB self
        { getBlock s self with referencingPtrs := (getCursor sB c).next } with hsC
      set sD := setCursor sC c { getCursor sC c with next := some d } with hsD
      set s2 := setBlock sD p { getBlock sC p with referencingPtrs := some c } with hs2
      have hstep : reconcileRelinkLoop (f + 1) s self p =
          reconcileRelinkLoop f s2 self p := by
        simp only [reconcileRelinkLoop, hrp, getBlock_setCursor, hdRefs]
      have hpresA : (lookupA sA.cursors c).isSome = true := by
        rw [hsA, isSome_cursors_setCursor]
        exact hpres
      have hgcA : getCursor sA c = { getCursor s c with block := some p } := by
        rw [hsA]
        exact getCursor_setCursor_self s c _ hpres
      have hgdA : getCursor sA d = getCursor s d := by
        rw [hsA, getCursor_setCursor_other s c _ d (fun hco => hcd hco.symm)]
      have hpresdA : (lookupA sA.cursors d).isSome = true := by
        rw [hsA, isSome_cursors_setCursor]
        exact hpresd
      have hgcB : getCursor sB c = { getCursor s c with block := some p } := by
        rw [hsB, getCursor_setCursor_other sA d _ c hcd, hgcA]
      have hgdB : getCursor sB d = { getCursor s d with prev := some c } := by
        rw [hsB, getCursor_setCursor_self sA d _ hpresdA, hgdA]
      have hpresC : (lookupA sC.cursors c).isSome = true := by
        rw [hsC, cursors_setBlock, hsB, isSome_cursors_setCursor]
        exact hpresA
      have hgcC : getCursor sC c = { getCursor s c with block := some p } := by
        rw [hsC, getCursor_setBlock, hgcB]
      have hgc2 : getCursor s2 c =
          { getCursor s c with block := some p, next := some d } := by
        rw [hs2, getCursor_setBlock, hsD, getCursor_setCursor_self sC c _ hpresC, hgcC]
      have hgd2 : getCursor s2 d = { getCursor s d with prev := some c } := by
        rw [hs2, getCursor_setBlock, hsD, getCursor_setCursor_other sC c _ d (fun hco => hcd hco.symm), hsC,
          getCursor_setBlock, hgdB]
      have hcursors2 : ∀ x, x ≠ c → x ≠ d → lookupA s2.cursors x = lookupA s.cursors x := by
        intro x hxc hxd
        rw [hs2, cursors_setBlock, hsD, cursors_setCursor,
          lookupA_updateA_other _ _ _ _ hxc, hsC, cursors_setBlock, hsB, cursors_setCursor,
          lookupA_updateA_other _ _ _ _ hxd, hsA, cursors_setCursor,
          lookupA_updateA_other _ _ _ _ hxc]
      have hbsD : (lookupA sD.blocks self).isSome = true := by
        rw [hsD, blocks_setCursor, hsC, isSome_blocks_setBlock, hsB, blocks_setCursor,
          hsA, blocks_setCursor]
        exact hbs
      have hbpD : (lookupA sD.blocks p).isSome = true := by
        rw [hsD, blocks_setCursor, hsC, isSome_blocks_setBlock, hsB, blocks_setCursor,
          hsA, blocks_setCursor]
        exact hbp
      have hbs2 : (lookupA s2.blocks self).isSome = true := by
        rw [hs2, isSome_blocks_setBlock]
        exact hbsD
      have hbp2 : (lookupA s2.blocks p).isSome = true := by
        rw [hs2, isSome_blocks_setBlock]
        exact hbpD
      have hgbself2 : getBlock s2 self =
          { getBlock s self with referencingPtrs := (getCursor s c).next } := by
        have : getBlock sC self =
            { getBlock s self with referencingPtrs := (getCursor sB c).next } := by
          rw [hsC]
          exact getBlock_setBlock_self sB self _
            (by rw [hsB, blocks_setCursor, hsA, blocks_setCursor]; exact hbs)
        rw [hs2, getBlock_setBlock_other _ _ _ _ hsp, hsD, getBlock_setCursor, this, hgcB]
      have hgbp2 : getBlock s2 p =
          { getBlock s p with referencingPtrs := some c } := by
        have hgCp : getBlock sC p = getBlock s p := by
          rw [hsC, getBlock_setBlock_other _ _ _ _ (fun h => hsp h.symm), hsB,
            getBlock_setCursor, hsA, getBlock_setCursor]
        rw [hs2, getBlock_setBlock_self sD p _ hbpD, hgCp]
      have hwfS2 : listWFfrom s2 self (some c) (getBlock s2 self).referencingPtrs rest
          = true := by
        rw [hgbself2,
          show ({ getBlock s self with referencingPtrs := (getCursor s c).next }
            : Block).referencingPtrs = (getCursor s c).next from rfl]
        rw [listWFfrom_congr rest s s2 self (some c) ((getCursor s c).next)
          (fun x hx => hcursors2 x (fun hco => hcrest (hco ▸ hx))
            (fun hco => hdrest (hco ▸ hx)))]
        exact hrest
      have hpres2c : (lookupA s2.cursors c).isSome = true := by
        rw [hs2, cursors_setBlock, hsD, isSome_cursors_setCursor, hsC, cursors_setBlock,
          hsB, isSome_cursors_setCursor, hsA, isSome_cursors_setCursor]
        exact hpres
      have hpres2d : (lookupA s2.cursors d).isSome = true := by
        rw [hs2, cursors_setBlock, hsD, isSome_cursors_setCursor, hsC, cursors_setBlock,
          hsB, isSome_cursors_setCursor, hsA, isSome_cursors_setCursor]
        exact hpresd
      have htail : listWFfrom s2 p (some d) (getCursor s d).next ds' = true := by
        rw [listWFfrom_congr ds' s s2 p (some d) ((getCursor s d).next)
          (fun x hx => hcursors2 x
            (fun hco => hcds (hco ▸ List.mem_cons_of_mem d hx))
            (fun hco => hdds' (hco ▸ hx)))]
        exact hrestd
      have hwfP2 : listWFfrom s2 p pv (getBlock s2 p).referencingPtrs (c :: d :: ds')
          = true := by
        rw [hgbp2]
        simp [listWFfrom, hgc2, hgd2, hpres2c, hpres2d, hprev, hblkd, htail]
      obtain ⟨s', hloop, hWF', hrefs', hobl, hfself, hfp, hocur, hptr, hsome, hmem, hkeys⟩ :=
        ih f s2 self p (some c) pv (c :: d :: ds') hsp hbs2 hbp2 hwfS2 hwfP2
          (by
            refine List.nodup_middle.mpr ?_
            exact List.nodup_cons.mpr ⟨hcnr, hnd'⟩)
          (by simp at hf ⊢; omega)
      refine ⟨s', by rw [hstep]; exact hloop, ?_, hrefs', ?_, ?_, ?_, ?_, ?_, ?_, ?_, ?_⟩
      · obtain ⟨q, hq⟩ := hWF'
        refine ⟨q, ?_⟩
        rw [show (c :: rest).reverse ++ d :: ds' = rest.reverse ++ (c :: d :: ds') by simp]
        exact hq
      · intro b' hb1 hb2
        rw [hobl b' hb1 hb2, hs2, getBlock_setBlock_other _ _ _ _ hb2, hsD,
          getBlock_setCursor, hsC, getBlock_setBlock_other _ _ _ _ hb1, hsB,
          getBlock_setCursor, hsA, getBlock_setCursor]
      · refine ⟨?_, ?_, ?_, ?_⟩
        · rw [hfself.1, hgbself2]
        · rw [hfself.2.1, hgbself2]
        · rw [hfself.2.2.1, hgbself2]
        · rw [hfself.2.2.2, hgbself2]
      · refine ⟨?_, ?_, ?_, ?_⟩
        · rw [hfp.1, hgbp2]
        · rw [hfp.2.1, hgbp2]
        · rw [hfp.2.2.1, hgbp2]
        · rw [hfp.2.2.2, hgbp2]
      · intro c' hc1 hc2
        have hc'c : c' ≠ c := fun hco => hc1 (hco ▸ List.mem_cons_self c rest)
        have hc'd : c' ≠ d := fun hco => hc2 (hco ▸ List.mem_cons_self d ds')
        rw [hocur c' (fun hco => hc1 (List.mem_cons_of_mem c hco))
          (by
            intro hco
            rcases List.mem_cons.mp hco with hco | hco
            · exact hc'c hco
            · exact hc2 (List.mem_cons_of_mem d (by
                rcases List.mem_cons.mp hco with hco | hco
                · exact absurd hco hc'd
                · exact hco)))]
        simp [getCursor, hcursors2 c' hc'c hc'd]
      · intro c'
        rw [hptr c']
        by_cases hc'c : c' = c
        · subst hc'c
          rw [hgc2]
        · by_cases hc'd : c' = d
          · subst hc'd
            rw [hgd2]
          · simp [getCursor, hcursors2 c' hc'c hc'd]
      · intro c'
        rw [hsome c']
        by_cases hc'c : c' = c
        · subst hc'c
          rw [hs2, cursors_setBlock, hsD, isSome_cursors_setCursor, hsC, cursors_setBlock,
            hsB, isSome_cursors_setCursor, hsA, isSome_cursors_setCursor]
        · by_cases hc'd : c' = d
          · subst hc'd
            rw [hs2, cursors_setBlock, hsD, isSome_cursors_setCursor, hsC, cursors_setBlock,
              hsB, isSome_cursors_setCursor, hsA, isSome_cursors_setCursor]
          · rw [show lookupA s2.cursors c' = lookupA s.cursors c' from
              hcursors2 c' hc'c hc'd]
      · rw [hmem, hs2, hsD, hsC, hsB, hsA]
        rfl
      · rw [hkeys, hs2, keys_setBlock, hsD, blocks_setCursor, hsC, keys_setBlock, hsB,
          blocks_setCursor, hsA, blocks_setCursor]

lemma getCursor_setCursor_ptr (s : CBState) (k : Nat) (v : BCPtr) (c : Nat)
    (hv : v.ptr = (getCursor s k).ptr) :
    (getCursor (setCursor s k v) c).ptr = (getCursor s c).ptr := by
  by_cases hc : c = k
  · subst hc
    by_cases hl : (lookupA s.cursors c).isSome = true
    · rw [getCursor_setCursor_self s c v hl, hv]
    · have hn : lookupA s.cursors c = none := by
        cases hx : lookupA s.cursors c
        · rfl
        · rw [hx] at hl
          simp at hl
      unfold getCursor setCursor
      simp only
      rw [lookupA_updateA_none s.cursors c v hn, hn]
  · rw [getCursor_setCursor_other s k v c hc]

lemma reconcileHeadFix_blocks (s : CBState) (p : Nat) :
    (reconcileHeadFix s p).blocks = s.blocks := by
  unfold reconcileHeadFix
  split <;> rfl

lemma reconcileHeadFix_mem (s : CBState) (p : Nat) :
    (reconcileHeadFix s p).mem = s.mem := by
  unfold reconcileHeadFix
  split <;> rfl

lemma reconcileHeadFix_getBlock (s : CBState) (p b : Nat) :
    getBlock (reconcileHeadFix s p) b = getBlock s b := by
  unfold reconcileHeadFix
  split <;> rfl

lemma reconcileHeadFix_ptr (s : CBState) (p c : Nat) :
    (getCursor (reconcileHeadFix s p) c).ptr = (getCursor s c).ptr := by
  unfold reconcileHeadFix
  split
  · rfl
  · exact getCursor_setCursor_ptr s _ _ c rfl

lemma reconcileHeadFix_isSome (s : CBState) (p c : Nat) :
    (lookupA (reconcileHeadFix s p).cursors c).isSome = (lookupA s.cursors c).isSome := by
  unfold reconcileHeadFix
  split
  · rfl
  · exact isSome_cursors_setCursor s _ _ c

lemma reconcileHeadFix_WF (s : CBState) (p : Nat) (q : Option Nat) (l : List Nat)
    (hnd : l.Nodup)
    (hwf : listWFfrom s p q (getBlock s p).referencingPtrs l = true) :
    blockListWF (reconcileHeadFix s p) p l = true := by
  rcases hrefs : (getBlock s p).referencingPtrs with _ | h1
  · rw [hrefs] at hwf
    cases l with
    | nil =>
      unfold blockListWF
      rw [reconcileHeadFix_getBlock, hrefs]
      rfl
    | cons x xs => simp [listWFfrom] at hwf
  · rw [hrefs] at hwf
    cases l with
    | nil => simp [listWFfrom] at hwf
    | cons c0 rest =>
      simp only [listWFfrom, Bool.and_eq_true, decide_eq_true_eq] at hwf
      obtain ⟨⟨⟨⟨hc0, hpres⟩, hblk⟩, hprev⟩, hrest⟩ := hwf
      subst hc0
      have hnr : h1 ∉ rest := (List.nodup_cons.mp hnd).1
      have hg : getCursor (setCursor s h1 { getCursor s h1 with prev := none }) h1 =
          { getCursor s h1 with prev := none } := getCursor_setCursor_self s h1 _ hpres
      have hp2 : (lookupA (setCursor s h1 { getCursor s h1 with prev := none }).cursors
          h1).isSome = true := by
        rw [isSome_cursors_setCursor]
        exact hpres
      have htail : listWFfrom (setCursor s h1 { getCursor s h1 with prev := none }) p
          (some h1) (getCursor s h1).next rest = true := by
        rw [listWFfrom_congr rest s _ p (some h1) ((getCursor s h1).next)
          (fun x hx => by
            have hxne : x ≠ h1 := by
              intro hco
              subst hco
              exact hnr hx
            rw [cursors_setCursor, lookupA_updateA_other _ _ _ _ hxne])]
        exact hrest
      unfold blockListWF
      simp only [reconcileHeadFix, hrefs]
      set t := setCursor s h1 { getCursor s h1 with prev := none } with htdef
      rw [show getBlock t p = getBlock s p from getBlock_setCursor s h1 _ p, hrefs]
      simp [listWFfrom, hg, hblk, hp2, htail]

lemma spliceStep_facts (s t : CBState) (p nxt : Nat)
    (hbp : (lookupA s.blocks p).isSome = true)
    (hbn : (lookupA s.blocks nxt).isSome = true)
    (ht : t = setBlock (setBlock s p { getBlock s p with next := nxt }) nxt
      { getBlock (setBlock s p { getBlock s p with next := nxt }) nxt with prev := p }) :
    (getBlock t p).next = nxt ∧
    (getBlock t nxt).prev = p ∧
    (∀ b', (getBlock t b').blockStart = (getBlock s b').blockStart ∧
      (getBlock t b').blockLength = (getBlock s b').blockLength ∧
      (getBlock t b').referencingPtrs = (getBlock s b').referencingPtrs) ∧
    (∀ b', b' ≠ p → b' ≠ nxt → getBlock t b' = getBlock s b') ∧
    (∀ b', b' ≠ p → (getBlock t b').next = (getBlock s b').next) ∧
    t.cursors = s.cursors ∧
    t.mem = s.mem ∧
    t.blocks.map Prod.fst = s.blocks.map Prod.fst ∧
    (∀ b', (lookupA t.blocks b').isSome = (lookupA s.blocks b').isSome) := by
  have hbn1 : (lookupA (setBlock s p { getBlock s p with next := nxt }).blocks nxt).isSome
      = true := by
    rw [isSome_blocks_setBlock]
    exact hbn
  have hbp1 : (lookupA (setBlock s p { getBlock s p with next := nxt }).blocks p).isSome
      = true := by
    rw [isSome_blocks_setBlock]
    exact hbp
  have hg1p : getBlock (setBlock s p { getBlock s p with next := nxt }) p =
      { getBlock s p with next := nxt } := getBlock_setBlock_self s p _ hbp
  by_cases hq : nxt = p
  · subst hq
    have hgt : getBlock t nxt = { getBlock (setBlock s nxt
        { getBlock s nxt with next := nxt }) nxt with prev := nxt } := by
      rw [ht]
      exact getBlock_setBlock_self _ nxt _ hbn1
    rw [hg1p] at hgt
    refine ⟨?_, ?_, ?_, ?_, ?_, ?_, ?_, ?_, ?_⟩
    · rw [hgt]
    · rw [hgt]
    · intro b'
      by_cases hb' : b' = nxt
      · subst hb'
        rw [hgt]
        exact ⟨rfl, rfl, rfl⟩
      · rw [ht, getBlock_setBlock_other _ _ _ _ hb', getBlock_setBlock_other _ _ _ _ hb']
        exact ⟨rfl, rfl, rfl⟩
    · intro b' hb1 _
      rw [ht, getBlock_setBlock_other _ _ _ _ hb1, getBlock_setBlock_other _ _ _ _ hb1]
    · intro b' hb1
      rw [ht, getBlock_setBlock_other _ _ _ _ hb1, getBlock_setBlock_other _ _ _ _ hb1]
    · rw [ht]
      rfl
    · rw [ht]
      rfl
    · rw [ht, keys_setBlock, keys_setBlock]
    · intro b'
      rw [ht, isSome_blocks_setBlock, isSome_blocks_setBlock]
  · have hgtn : getBlock t nxt = { getBlock s nxt with prev := p } := by
      rw [ht, getBlock_setBlock_self _ nxt _ hbn1,
        getBlock_setBlock_other _ _ _ _ hq]
    have hgtp : getBlock t p = { getBlock s p with next := nxt } := by
      rw [ht, getBlock_setBlock_other _ _ _ _ (fun hco => hq hco.symm), hg1p]
    refine ⟨?_, ?_, ?_, ?_, ?_, ?_, ?_, ?_, ?_⟩
    · rw [hgtp]
    · rw [hgtn]
    · intro b'
      by_cases hb1 : b' = p
      · subst hb1
        rw [hgtp]
        exact ⟨rfl, rfl, rfl⟩
      · by_cases hb2 : b' = nxt
        · subst hb2
          rw [hgtn]
          exact ⟨rfl, rfl, rfl⟩
        · rw [ht, getBlock_setBlock_other _ _ _ _ hb2, getBlock_setBlock_other _ _ _ _ hb1]
          exact ⟨rfl, rfl, rfl⟩
    · intro b' hb1 hb2
      rw [ht, getBlock_setBlock_other _ _ _ _ hb2, getBlock_setBlock_other _ _ _ _ hb1]
    · intro b' hb1
      by_cases hb2 : b' = nxt
      · subst hb2
        rw [hgtn]
      · rw [ht, getBlock_setBlock_other _ _ _ _ hb2, getBlock_setBlock_other _ _ _ _ hb1]
    · rw [ht]
      rfl
    · rw [ht]
      rfl
    · rw [ht, keys_setBlock, keys_setBlock]
    · intro b'
      rw [ht, isSome_blocks_setBlock, isSome_blocks_setBlock]

lemma reconcileSplice_facts (s : CBState) (self p : Nat)
    (hpdef : (getBlock s self).prev = p)
    (hps : p ≠ self) (hns : (getBlock s self).next ≠ self)
    (hbp : (lookupA s.blocks p).isSome = true)
    (hbn : (lookupA s.blocks (getBlock s self).next).isSome = true) :
    (reconcileSplice s self).cursors = s.cursors ∧
    (reconcileSplice s self).mem = s.mem ∧
    (reconcileSplice s self).blocks.map Prod.fst = s.blocks.map Prod.fst ∧
    (∀ b', (lookupA (reconcileSplice s self).blocks b').isSome =
      (lookupA s.blocks b').isSome) ∧
    getBlock (reconcileSplice s self) self = getBlock s self ∧
    (getBlock (reconcileSplice s self) p).blockStart = (getBlock s p).blockStart ∧
    (getBlock (reconcileSplice s self) p).blockLength =
      (getBlock s p).blockLength + (getBlock s self).blockLength ∧
    (getBlock (reconcileSplice s self) p).next = (getBlock s self).next ∧
    (getBlock (reconcileSplice s self) p).referencingPtrs =
      (getBlock s p).referencingPtrs ∧
    (getBlock (reconcileSplice s self) (getBlock s self).next).prev = p ∧
    (∀ b', b' ≠ p → b' ≠ (getBlock s self).next →
      getBlock (reconcileSplice s self) b' = getBlock s b') ∧
    (∀ b', (getBlock (reconcileSplice s self) b').blockStart =
      (getBlock s b').blockStart ∧
      (getBlock (reconcileSplice s self) b').referencingPtrs =
        (getBlock s b').referencingPtrs) ∧
    (∀ b', b' ≠ p → (getBlock (reconcileSplice s self) b').blockLength =
      (getBlock s b').blockLength ∧
      (getBlock (reconcileSplice s self) b').next = (getBlock s b').next) := by
  set nxt := (getBlock s self).next with hnxt
  set s1 := setBlock s p
    { getBlock s p with
      blockLength := (getBlock s p).blockLength + (getBlock s self).blockLength } with hs1
  set s2 := setBlock s1 p { getBlock s1 p with next := nxt } with hs2
  set s3 := setBlock s2 nxt { getBlock s2 nxt with prev := p } with hs3
  set s4 := setBlock s3 p { getBlock s3 p with willReconcileNext := false } with hs4
  have hun : reconcileSplice s self = s4 := by
    simp only [reconcileSplice, hpdef]
  have hbp1 : (lookupA s1.blocks p).isSome = true := by
    rw [hs1, isSome_blocks_setBlock]
    exact hbp
  have hbp2 : (lookupA s2.blocks p).isSome = true := by
    rw [hs2, isSome_blocks_setBlock]
    exact hbp1
  have hbp3 : (lookupA s3.blocks p).isSome = true := by
    rw [hs3, isSome_blocks_setBlock]
    exact hbp2
  have hbn2 : (lookupA s2.blocks nxt).isSome = true := by
    rw [hs2, isSome_blocks_setBlock, hs1, isSome_blocks_setBlock]
    exact hbn
  have hcur : s4.cursors = s.cursors := by
    rw [hs4, cursors_setBlock, hs3, cursors_setBlock, hs2, cursors_setBlock, hs1,
      cursors_setBlock]
  have hmem : s4.mem = s.mem := by
    rw [hs4, hs3, hs2, hs1]
    rfl
  have hkeys : s4.blocks.map Prod.fst = s.blocks.map Prod.fst := by
    rw [hs4, keys_setBlock, hs3, keys_setBlock, hs2, keys_setBlock, hs1, keys_setBlock]
  have hisSome : ∀ b', (lookupA s4.blocks b').isSome = (lookupA s.blocks b').isSome := by
    intro b'
    rw [hs4, isSome_blocks_setBlock, hs3, isSome_blocks_setBlock, hs2,
      isSome_blocks_setBlock, hs1, isSome_blocks_setBlock]
  have hother : ∀ b', b' ≠ p → b' ≠ nxt → getBlock s4 b' = getBlock s b' := by
    intro b' hb1 hb2
    rw [hs4, getBlock_setBlock_other _ _ _ _ hb1, hs3, getBlock_setBlock_other _ _ _ _ hb2,
      hs2, getBlock_setBlock_other _ _ _ _ hb1, hs1, getBlock_setBlock_other _ _ _ _ hb1]
  have hg1p : getBlock s1 p =
      { getBlock s p with
        blockLength := (getBlock s p).blockLength + (getBlock s self).blockLength } := by
    rw [hs1]
    exact getBlock_setBlock_self s p _ hbp
  have hg2p : getBlock s2 p = { getBlock s1 p with next := nxt } := by
    rw [hs2]
    exact getBlock_setBlock_self s1 p _ hbp1
  have hg4p : getBlock s4 p = { getBlock s3 p with willReconcileNext := false } := by
    rw [hs4]
    exact getBlock_setBlock_self s3 p _ hbp3
  by_cases hq : nxt = p
  · have hg3p : getBlock s3 p = { getBlock s2 p with prev := p } := by
      rw [hs3, hq]
      exact getBlock_setBlock_self s2 p _ hbp2
    have hself : getBlock s4 self = getBlock s self :=
      hother self (fun hco => hps hco.symm) (fun hco => hns (hq ▸ hco.symm))
    rw [hun]
    refine ⟨hcur, hmem, hkeys, hisSome, hself, ?_, ?_, ?_, ?_, ?_, hother, ?_, ?_⟩
    · rw [hg4p, hg3p, hg2p, hg1p]
    · rw [hg4p, hg3p, hg2p, hg1p]
    · rw [hg4p, hg3p, hg2p]
    · rw [hg4p, hg3p, hg2p, hg1p]
    · rw [hq, hg4p, hg3p]
    · intro b'
      by_cases hb1 : b' = p
      · subst hb1
        rw [hg4p, hg3p, hg2p, hg1p]
        exact ⟨rfl, rfl⟩
      · rw [hother b' hb1 (fun hco => hb1 (hq ▸ hco))]
        exact ⟨rfl, rfl⟩
    · intro b' hb1
      rw [hother b' hb1 (fun hco => hb1 (hq ▸ hco))]
      exact ⟨rfl, rfl⟩
  · have hg3p : getBlock s3 p = getBlock s2 p := by
      rw [hs3, getBlock_setBlock_other _ _ _ _ (fun hco => hq hco.symm)]
    have hg3n : getBlock s3 nxt = { getBlock s2 nxt with prev := p } := by
      rw [hs3]
      exact getBlock_setBlock_self s2 nxt _ hbn2
    have hg2n : getBlock s2 nxt = getBlock s nxt := by
      rw [hs2, getBlock_setBlock_other _ _ _ _ hq, hs1, getBlock_setBlock_other _ _ _ _ hq]
    have hg4n : getBlock s4 nxt = getBlock s3 nxt := by
      rw [hs4, getBlock_setBlock_other _ _ _ _ hq]
    have hself : getBlock s4 self = getBlock s self :=
      hother self (fun hco => hps hco.symm) (fun hco => hns hco.symm)
    rw [hun]
    refine ⟨hcur, hmem, hkeys, hisSome, hself, ?_, ?_, ?_, ?_, ?_, hother, ?_, ?_⟩
    · rw [hg4p, hg3p, hg2p, hg1p]
    · rw [hg4p, hg3p, hg2p, hg1p]
    · rw [hg4p, hg3p, hg2p]
    · rw [hg4p, hg3p, hg2p, hg1p]
    · rw [hg4n, hg3n]
    · intro b'
      by_cases hb1 : b' = p
      · subst hb1
        rw [hg4p, hg3p, hg2p, hg1p]
        exact ⟨rfl, rfl⟩
      · by_cases hb2 : b' = nxt
        · subst hb2
          rw [hg4n, hg3n, hg2n]
          exact ⟨rfl, rfl⟩
        · rw [hother b' hb1 hb2]
          exact ⟨rfl, rfl⟩
    · intro b' hb1
      by_cases hb2 : b' = nxt
      · subst hb2
        rw [hg4n, hg3n, hg2n]
        exact ⟨rfl, rfl⟩
      · rw [hother b' hb1 hb2]
        exact ⟨rfl, rfl⟩

lemma lookupA_isSome_of_mem {α : Type} (l : List (Nat × α)) (k : Nat)
    (h : k ∈ l.map Prod.fst) : (lookupA l k).isSome = true := by
  induction l with
  | nil => simp at h
  | cons p r ih =>
    obtain ⟨k1, v1⟩ := p
    rw [lookupA_cons]
    by_cases hk : k1 = k
    · simp [hk]
    · rw [if_neg hk]
      simp at h
      rcases h with h | h
      · exact absurd h.symm hk
      · exact ih (by simpa using h)

lemma attemptReconcileNext_false_id (f2 : Nat) (s2 : CBState) (b2 : Nat) (t : CBState)
    (h : attemptReconcileNext s2 b2 f2 = some (false, t)) : t = s2 := by
  simp only [attemptReconcileNext] at h
  split_ifs at h with h1 h2 h3
  · injection h with h
    injection h with _ h
    exact h.symm
  · injection h with h
    injection h with _ h
    exact h.symm
  · injection h with h
    injection h with _ h
    exact h.symm
  · exact absurd h (reconcileMergeBody_ne_false s2 b2 f2 t)

/-- Claim C6: every successful `attemptReconcileNext` call (header lines
594–636; `attemptReconcilePrev`, lines 583–586, never returns) merges block
`self` into its physical predecessor `p`: `p`'s length becomes the sum of the
two lengths (same start), every cursor of `self`'s list is relinked into
`p`'s cursor list with its position pointer unchanged, `self` is unlinked
from the physical chain (`p.next = self.next`, `self.next.prev = p`) and
released (removed from the block heap, and no other block id is lost), raw
memory is untouched, and the address walk that readback performs over the
physical chain is unchanged from every starting position — data stays
readable at the same logical positions.  The final conjuncts record that no
other modelled operation ever removes a block id: this merge is the only way
a block is destroyed. -/
theorem c6_merge_success_postconditions (s : CBState) (self p : Nat) (fuel : Nat)
    (cs ds : List Nat)
    (hpdef : (getBlock s self).prev = p)
    (hbs : (lookupA s.blocks self).isSome = true)
    (hbp : (lookupA s.blocks p).isSome = true)
    (hps : p ≠ self)
    (hg2 : (getBlock s p).parentSuperblock = (getBlock s self).parentSuperblock)
    (hg3 : (getBlock s p).blockStart + (getBlock s p).blockLength =
      (getBlock s self).blockStart)
    (hwfS : blockListWF s self cs = true)
    (hwfP : blockListWF s p ds = true)
    (hnd : (cs ++ ds).Nodup)
    (hfuel : cs.length < fuel)
    (hsn : (getBlock s self).next ≠ self)
    (hbn : (lookupA s.blocks (getBlock s self).next).isSome = true)
    (hpn : (getBlock s p).next = self)
    (hlen : ∀ b' ∈ blockIds s, 0 < (getBlock s b').blockLength)
    (hclosed : ∀ b' ∈ blockIds s, (getBlock s b').next ∈ blockIds s)
    (huniq : ∀ b' ∈ blockIds s, (getBlock s b').next = self → b' = p) :
    ∃ s', attemptReconcileNext s self fuel = some (true, s') ∧
      (getBlock s' p).blockStart = (getBlock s p).blockStart ∧
      (getBlock s' p).blockLength =
        (getBlock s p).blockLength + (getBlock s self).blockLength ∧
      (∀ c ∈ cs, (getCursor s' c).block = some p ∧
        (getCursor s' c).ptr = (getCursor s c).ptr) ∧
      blockListWF s' p (cs.reverse ++ ds) = true ∧
      (getBlock s' p).next = (getBlock s self).next ∧
      (getBlock s' (getBlock s self).next).prev = p ∧
      self ∉ blockIds s' ∧
      blockIds s' = (blockIds s).filter (fun x => x ≠ self) ∧
      s'.mem = s.mem ∧
      (∀ c, (getCursor s' c).ptr = (getCursor s c).ptr) ∧
      (∀ (n b0 pos : Nat), b0 ∈ blockIds s →
        pos < (getBlock s b0).blockStart + (getBlock s b0).blockLength →
        readAddrs s' n (if b0 = self then p else b0) pos = readAddrs s n b0 pos) ∧
      (∀ s2 inp cnt t, writeOp s2 inp cnt = some t → blockIds t = blockIds s2) ∧
      (∀ s2 buf cnt k t out, readOp s2 buf cnt = RRes.ok k t out →
        blockIds t = blockIds s2) ∧
      (∀ s2 c nb np, blockIds (cursorMove s2 c nb np) = blockIds s2) ∧
      (∀ s2 nid b2 pos t, bcptrNew s2 nid b2 pos = some t → blockIds t = blockIds s2) ∧
      (∀ s2 nid src t, bcptrCopy s2 nid src = some t → blockIds t = blockIds s2) ∧
      (∀ f2 s2 b2 t, attemptReconcileNext s2 b2 f2 = some (false, t) → t = s2) ∧
      (∀ f2 s2 b2, attemptReconcilePrevFuel f2 s2 b2 = none) := by
  obtain ⟨f, rfl⟩ : ∃ f, fuel = f + 1 := ⟨fuel - 1, by omega⟩
  set nxt := (getBlock s self).next with hnxt
  have hpmem : p ∈ blockIds s := lookupA_isSome_mem _ _ hbp
  have hsmem : self ∈ blockIds s := lookupA_isSome_mem _ _ hbs
  -- splice
  obtain ⟨hSpCur, hSpMem, hSpKeys, hSpSome, hSpSelf, hSpStart, hSpLen, hSpNext, hSpRefs,
    hSpNprev, hSpOther, hSpSR, hSpLN⟩ :=
    reconcileSplice_facts s self p hpdef hps hsn hbp hbn
  set sSp := reconcileSplice s self with hsSp
  -- relink loop
  have hbsSp : (lookupA sSp.blocks self).isSome = true := by
    rw [hSpSome]
    exact hbs
  have hbpSp : (lookupA sSp.blocks p).isSome = true := by
    rw [hSpSome]
    exact hbp
  unfold blockListWF at hwfS hwfP
  have hwfSsp : listWFfrom sSp self none (getBlock sSp self).referencingPtrs cs = true := by
    rw [hSpSelf]
    rw [listWFfrom_congr cs s sSp self none ((getBlock s self).referencingPtrs)
      (fun x _ => by rw [hSpCur])]
    exact hwfS
  have hwfPsp : listWFfrom sSp p none (getBlock sSp p).referencingPtrs ds = true := by
    rw [hSpRefs]
    rw [listWFfrom_congr ds s sSp p none ((getBlock s p).referencingPtrs)
      (fun x _ => by rw [hSpCur])]
    exact hwfP
  obtain ⟨s3, hloop, hWF3, hrefs3, hobl3, hfself3, hfp3, hocur3, hptr3, hsome3, hmem3,
    hkeys3⟩ :=
    reconcileRelinkLoop_spec cs (f + 1) sSp self p none none ds (Ne.symm hps) hbsSp hbpSp
      hwfSsp hwfPsp hnd hfuel
  -- merge body reduces to reconcileFinish on s3
  have hbody : reconcileMergeBody s self (f + 1) =
      (reconcileRelinkLoop (f + 1) sSp self p).bind
        (fun s4 => reconcileFinish s4 self p (f + 1)) := by
    simp only [reconcileMergeBody, hpdef]
  have hmergeEq : reconcileMergeBody s self (f + 1) = reconcileFinish s3 self p (f + 1) := by
    rw [hbody, hloop]
    rfl
  -- the head fixup
  set sH := reconcileHeadFix s3 p with hsH
  have hHb : sH.blocks = s3.blocks := by
    rw [hsH]
    exact reconcileHeadFix_blocks s3 p
  have hHg : ∀ b, getBlock sH b = getBlock s3 b := by
    intro b
    rw [hsH]
    exact reconcileHeadFix_getBlock s3 p b
  have hHptr : ∀ c, (getCursor sH c).ptr = (getCursor s3 c).ptr := by
    intro c
    rw [hsH]
    exact reconcileHeadFix_ptr s3 p c
  have hHmem : sH.mem = s3.mem := by
    rw [hsH]
    exact reconcileHeadFix_mem s3 p
  have hndrev : (cs.reverse ++ ds).Nodup :=
    (((cs.reverse_perm).append_right ds).nodup_iff).mpr hnd
  have hWFH : blockListWF sH p (cs.reverse ++ ds) = true := by
    obtain ⟨q, hq⟩ := hWF3
    rw [hsH]
    exact reconcileHeadFix_WF s3 p q (cs.reverse ++ ds) hndrev hq
  have hmemKeysH : ∀ b', (lookupA s.blocks b').isSome = true →
      (lookupA sH.blocks b').isSome = true := by
    intro b' hb'
    refine lookupA_isSome_of_mem _ _ ?_
    rw [hHb, hkeys3, hSpKeys]
    exact lookupA_isSome_mem _ _ hb'
  have hbpH : (lookupA sH.blocks p).isSome = true := hmemKeysH p hbp
  have hbnH : (lookupA sH.blocks nxt).isSome = true := hmemKeysH nxt hbn
  -- first destructor run
  have hHselfprev : (getBlock sH self).prev = p := by
    rw [hHg self, hfself3.2.2.2, hSpSelf, hpdef]
  have hHselfnext : (getBlock sH self).next = nxt := by
    rw [hHg self, hfself3.2.2.1, hSpSelf]
  set sE := setBlock sH p { getBlock sH p with next := nxt } with hsE
  set sF := setBlock sE nxt { getBlock sE nxt with prev := p } with hsF
  have hde1 : blockDtorEffects sH self (f + 1) = blockDtorCursorLoop (f + 1) sF self := by
    simp only [blockDtorEffects, hHselfprev, hHselfnext]
  obtain ⟨hA1, hA2, hA3, hA4, hA5, hA6, hA7, hA8, hA9⟩ :=
    spliceStep_facts sH sF p nxt hbpH hbnH (by rw [hsF, hsE])
  have hrefsF : (getBlock sF self).referencingPtrs = none := by
    rw [hA4 self (Ne.symm hps) (fun hco => hsn hco.symm), hHg self]
    exact hrefs3
  have hloop1 : blockDtorCursorLoop (f + 1) sF self = some sF := by
    simp only [blockDtorCursorLoop, hrefsF]
  have hde1s : blockDtorEffects sH self (f + 1) = some sF := by
    rw [hde1, hloop1]
  -- second destructor run
  have hFself : getBlock sF self = getBlock sH self :=
    hA4 self (Ne.symm hps) (fun hco => hsn hco.symm)
  have hFselfprev : (getBlock sF self).prev = p := by
    rw [hFself, hHselfprev]
  have hFselfnext : (getBlock sF self).next = nxt := by
    rw [hFself, hHselfnext]
  set sG := setBlock sF p { getBlock sF p with next := nxt } with hsG
  set sI := setBlock sG nxt { getBlock sG nxt with prev := p } with hsI
  have hde2 : blockDtorEffects sF self (f + 1) = blockDtorCursorLoop (f + 1) sI self := by
    simp only [blockDtorEffects, hFselfprev, hFselfnext]
  have hbpF : (lookupA sF.blocks p).isSome = true := by
    rw [hA9]
    exact hbpH
  have hbnF : (lookupA sF.blocks nxt).isSome = true := by
    rw [hA9]
    exact hbnH
  obtain ⟨hB1, hB2, hB3, hB4, hB5, hB6, hB7, hB8, hB9⟩ :=
    spliceStep_facts sF sI p nxt hbpF hbnF (by rw [hsI, hsG])
  have hrefsI : (getBlock sI self).referencingPtrs = none := by
    rw [hB4 self (Ne.symm hps) (fun hco => hsn hco.symm), hFself, hHg self]
    exact hrefs3
  have hloop2 : blockDtorCursorLoop (f + 1) sI self = some sI := by
    simp only [blockDtorCursorLoop, hrefsI]
  have hde2s : blockDtorEffects sF self (f + 1) = some sI := by
    rw [hde2, hloop2]
  -- finish
  have hfin : reconcileFinish s3 self p (f + 1) =
      some (true, { sI with blocks := removeA sI.blocks self }) := by
    simp only [reconcileFinish]
    rw [← hsH, hde1s]
    simp only [Option.some_bind]
    rw [hde2s]
    simp only [Option.some_bind]
  set sFin := { sI with blocks := removeA sI.blocks self } with hsFin
  have hmain : attemptReconcileNext s self (f + 1) = some (true, sFin) := by
    simp only [attemptReconcileNext, hpdef]
    rw [if_neg hps, if_neg (fun hco => hco hg2), if_neg (fun hco => hco hg3),
      hmergeEq, hfin]
  -- state chains
  have hFinCur : sFin.cursors = sH.cursors := by
    rw [hsFin]
    show sI.cursors = sH.cursors
    rw [hB6, hA6]
  have hCurS : ∀ c, getCursor sFin c = getCursor sH c := by
    intro c
    simp [getCursor, hFinCur, hB6, hA6]
  have hGBfin : ∀ b', b' ≠ self → getBlock sFin b' = getBlock sI b' := by
    intro b' hb'
    rw [hsFin]
    show (lookupA (removeA sI.blocks self) b').getD default = getBlock sI b'
    rw [lookupA_removeA_other sI.blocks self b' hb']
    rfl
  have hPstart : (getBlock sFin p).blockStart = (getBlock s p).blockStart := by
    rw [hGBfin p hps, (hB3 p).1, (hA3 p).1, hHg p, hfp3.1, hSpStart]
  have hPlen : (getBlock sFin p).blockLength =
      (getBlock s p).blockLength + (getBlock s self).blockLength := by
    rw [hGBfin p hps, (hB3 p).2.1, (hA3 p).2.1, hHg p, hfp3.2.1, hSpLen]
  have hPnext : (getBlock sFin p).next = nxt := by
    rw [hGBfin p hps, hB1]
  have hNprev : (getBlock sFin nxt).prev = p := by
    rw [hGBfin nxt hsn, hB2]
  have hPrefs : (getBlock sFin p).referencingPtrs = (getBlock sH p).referencingPtrs := by
    rw [hGBfin p hps, (hB3 p).2.2, (hA3 p).2.2]
  have hFinMem : sFin.mem = s.mem := by
    rw [hsFin]
    show sI.mem = s.mem
    rw [hB7, hA7, hHmem, hmem3, hSpMem]
  have hPtrAll : ∀ c, (getCursor sFin c).ptr = (getCursor s c).ptr := by
    intro c
    rw [hCurS c, hHptr c, hptr3 c]
    have : getCursor sSp c = getCursor s c := by
      simp [getCursor, hSpCur]
    rw [this]
  have hWFfin : blockListWF sFin p (cs.reverse ++ ds) = true := by
    unfold blockListWF
    rw [hPrefs]
    unfold blockListWF at hWFH
    rw [listWFfrom_congr (cs.reverse ++ ds) sH sFin p none
      ((getBlock sH p).referencingPtrs) (fun x _ => by rw [hFinCur])]
    exact hWFH
  have hKeysFin : blockIds sFin = (blockIds s).filter (fun x => x ≠ self) := by
    show (removeA sI.blocks self).map Prod.fst = (blockIds s).filter (fun x => x ≠ self)
    rw [removeA_map_fst_eq]
    have : sI.blocks.map Prod.fst = s.blocks.map Prod.fst := by
      rw [hB8, hA8, hHb, hkeys3, hSpKeys]
    rw [this]
    rfl
  have hGeom : ∀ b', b' ≠ p → b' ≠ self →
      (getBlock sFin b').blockStart = (getBlock s b').blockStart ∧
      (getBlock sFin b').blockLength = (getBlock s b').blockLength ∧
      (getBlock sFin b').next = (getBlock s b').next := by
    intro b' hb1 hb2
    have hI3 := hB3 b'
    have hH3 := hA3 b'
    have hOB := hobl3 b' hb2 hb1
    refine ⟨?_, ?_, ?_⟩
    · rw [hGBfin b' hb2, hI3.1, hH3.1, hHg b', hOB, (hSpSR b').1]
    · rw [hGBfin b' hb2, hI3.2.1, hH3.2.1, hHg b', hOB, (hSpLN b' hb1).1]
    · rw [hGBfin b' hb2, hB5 b' hb1, hA5 b' hb1, hHg b', hOB, (hSpLN b' hb1).2]
  refine ⟨sFin, hmain, hPstart, hPlen, ?_, hWFfin, hPnext, hNprev, ?_, hKeysFin,
    hFinMem, hPtrAll, ?_, ?_, ?_, ?_, ?_, ?_, attemptReconcileNext_false_id,
    attemptReconcilePrevFuel_none⟩
  · intro c hc
    refine ⟨?_, hPtrAll c⟩
    refine listWFfrom_mem_block (cs.reverse ++ ds) sFin p none
      ((getBlock sFin p).referencingPtrs) hWFfin c ?_
    exact List.mem_append_left ds (List.mem_reverse.mpr hc)
  · show self ∉ (removeA sI.blocks self).map Prod.fst
    exact removeA_map_fst sI.blocks self
  · intro n b0 pos hb0 hpos
    exact readAddrs_merge s sFin self p hps hpmem hsmem hpn hg3 hsn hlen hclosed huniq
      hPstart hPlen (by rw [hPnext]) hGeom n b0 pos hb0 hpos
  · intro s2 inp cnt t h
    exact blockIds_writeLoop (cnt + 2) s2 inp cnt 0 t h
  · intro s2 buf cnt k t out h
    exact blockIds_readLoop (cnt + 2) s2 buf cnt 0 k t out h
  · intro s2 c nb np
    exact blockIds_cursorMove s2 c nb np
  · intro s2 nid b2 pos t h
    exact blockIds_bcptrNew s2 nid b2 pos t h
  · intro s2 nid src t h
    exact blockIds_bcptrCopy s2 nid src t h

theorem c6_merge_success_postconditions_witness :
    blockListWF c6State 1 [2] = true ∧ blockListWF c6State 0 [0, 1] = true ∧
    (∃ s', attemptReconcileNext c6State 1 2 = some (true, s') ∧
      (getBlock s' 0).blockStart = (getBlock c6State 0).blockStart ∧
      (getBlock s' 0).blockLength =
        (getBlock c6State 0).blockLength + (getBlock c6State 1).blockLength ∧
      (∀ c ∈ [2], (getCursor s' c).block = some 0 ∧
        (getCursor s' c).ptr = (getCursor c6State c).ptr) ∧
      blockListWF s' 0 ([2].reverse ++ [0, 1]) = true ∧
      (getBlock s' 0).next = (getBlock c6State 1).next ∧
      (getBlock s' (getBlock c6State 1).next).prev = 0 ∧
      1 ∉ blockIds s' ∧
      blockIds s' = (blockIds c6State).filter (fun x => x ≠ 1) ∧
      s'.mem = c6State.mem ∧
      (∀ c, (getCursor s' c).ptr = (getCursor c6State c).ptr) ∧
      (∀ (n b0 pos : Nat), b0 ∈ blockIds c6State →
        pos < (getBlock c6State b0).blockStart + (getBlock c6State b0).blockLength →
        readAddrs s' n (if b0 = 1 then 0 else b0) pos = readAddrs c6State n b0 pos) ∧
      (∀ s2 inp cnt t, writeOp s2 inp cnt = some t → blockIds t = blockIds s2) ∧
      (∀ s2 buf cnt k t out, readOp s2 buf cnt = RRes.ok k t out →
        blockIds t = blockIds s2) ∧
      (∀ s2 c nb np, blockIds (cursorMove s2 c nb np) = blockIds s2) ∧
      (∀ s2 nid b2 pos t, bcptrNew s2 nid b2 pos = some t → blockIds t = blockIds s2) ∧
      (∀ s2 nid src t, bcptrCopy s2 nid src = some t → blockIds t = blockIds s2) ∧
      (∀ f2 s2 b2 t, attemptReconcileNext s2 b2 f2 = some (false, t) → t = s2) ∧
      (∀ f2 s2 b2, attemptReconcilePrevFuel f2 s2 b2 = none)) :=
  ⟨by decide, by decide,
    c6_merge_success_postconditions c6State 1 0 2 [2] [0, 1] (by decide) (by decide)
      (by decide) (by decide) (by decide) (by decide) (by decide) (by decide) (by decide)
      (by decide) (by decide) (by decide) (by decide) (by decide) (by decide) (by decide)⟩

end ReplayWorkbench
